import Mathlib

/-!
LUMA ULTIMATE: record store, HTTP gateway and client actions.

A shallow embedding of `server.js` (the Express gateway over the two JSON files
`users.json` and `art.json`) and of the client actions of `src/App.jsx`.

Modelling conventions.

* JavaScript values are the type `Json`: the JSON values plus `undefined`, the
  result of reading a missing property.  Numbers are integers (identifiers are
  `Date.now()` readings); floating point is outside the model.
* An object is an association list `Obj` of property names and values in the
  order in which the properties were defined (the engine lists names that look
  like array indices first; no statement below depends on the order of the
  properties inside a record).  Objects produced by `JSON.parse` or by an object
  literal have every property name once; `WellFormed` states it.
* A data file, and likewise the session entry, is represented by the value it
  holds: `JSON.parse (JSON.stringify c)` is `c` for a value without `undefined`,
  and request bodies and stored records, being parsed JSON, have none.
* `Date.now()` and `parseInt(req.params.id)` are inputs of the handlers: a clock
  reading `now : Int` and a parsed identifier `pid : Option Int`, where `none`
  is `NaN`.  Request bodies are JSON objects.
* A client handler is a function on the client state that returns the calls it
  makes; what an awaited request resolves to is an input.  `World` and `App` put
  the client in front of the gateway.  In `App` every `await` of the profile-update
  path is a suspension: an image being encoded is an `Encoding` entry, a call of
  `handleUpdateUser` waiting for its answer is a `Pending` entry, and the end of
  the encoding and the arrival of the answer are events of their own.
* The path parameter that the gateway parses is computed by a `route`; the
  transition system takes it as a parameter, and `routeId` is the route of the
  worked examples.
-/

namespace Luma

/-- JavaScript values: JSON values and `undefined`. -/
inductive Json where
  | undefined : Json
  | null : Json
  | bool (b : Bool) : Json
  | num (n : Int) : Json
  | str (s : String) : Json
  | arr (items : List Json) : Json
  | obj (props : List (String × Json)) : Json

/-- Objects: property names with their values, in property order. -/
abbrev Obj := List (String × Json)

mutual
/-- Decision procedure for equality of values. -/
def Json.decEq : (a b : Json) → Decidable (a = b)
  | .undefined, .undefined => isTrue rfl
  | .undefined, .null => isFalse (fun e => Json.noConfusion e)
  | .undefined, .bool _ => isFalse (fun e => Json.noConfusion e)
  | .undefined, .num _ => isFalse (fun e => Json.noConfusion e)
  | .undefined, .str _ => isFalse (fun e => Json.noConfusion e)
  | .undefined, .arr _ => isFalse (fun e => Json.noConfusion e)
  | .undefined, .obj _ => isFalse (fun e => Json.noConfusion e)
  | .null, .undefined => isFalse (fun e => Json.noConfusion e)
  | .null, .null => isTrue rfl
  | .null, .bool _ => isFalse (fun e => Json.noConfusion e)
  | .null, .num _ => isFalse (fun e => Json.noConfusion e)
  | .null, .str _ => isFalse (fun e => Json.noConfusion e)
  | .null, .arr _ => isFalse (fun e => Json.noConfusion e)
  | .null, .obj _ => isFalse (fun e => Json.noConfusion e)
  | .bool _, .undefined => isFalse (fun e => Json.noConfusion e)
  | .bool _, .null => isFalse (fun e => Json.noConfusion e)
  | .bool x, .bool y =>
    if h : x = y then isTrue (congrArg Json.bool h)
    else isFalse (fun e => h (Json.bool.inj e))
  | .bool _, .num _ => isFalse (fun e => Json.noConfusion e)
  | .bool _, .str _ => isFalse (fun e => Json.noConfusion e)
  | .bool _, .arr _ => isFalse (fun e => Json.noConfusion e)
  | .bool _, .obj _ => isFalse (fun e => Json.noConfusion e)
  | .num _, .undefined => isFalse (fun e => Json.noConfusion e)
  | .num _, .null => isFalse (fun e => Json.noConfusion e)
  | .num _, .bool _ => isFalse (fun e => Json.noConfusion e)
  | .num x, .num y =>
    if h : x = y then isTrue (congrArg Json.num h)
    else isFalse (fun e => h (Json.num.inj e))
  | .num _, .str _ => isFalse (fun e => Json.noConfusion e)
  | .num _, .arr _ => isFalse (fun e => Json.noConfusion e)
  | .num _, .obj _ => isFalse (fun e => Json.noConfusion e)
  | .str _, .undefined => isFalse (fun e => Json.noConfusion e)
  | .str _, .null => isFalse (fun e => Json.noConfusion e)
  | .str _, .bool _ => isFalse (fun e => Json.noConfusion e)
  | .str _, .num _ => isFalse (fun e => Json.noConfusion e)
  | .str x, .str y =>
    if h : x = y then isTrue (congrArg Json.str h)
    else isFalse (fun e => h (Json.str.inj e))
  | .str _, .arr _ => isFalse (fun e => Json.noConfusion e)
  | .str _, .obj _ => isFalse (fun e => Json.noConfusion e)
  | .arr _, .undefined => isFalse (fun e => Json.noConfusion e)
  | .arr _, .null => isFalse (fun e => Json.noConfusion e)
  | .arr _, .bool _ => isFalse (fun e => Json.noConfusion e)
  | .arr _, .num _ => isFalse (fun e => Json.noConfusion e)
  | .arr _, .str _ => isFalse (fun e => Json.noConfusion e)
  | .arr x, .arr y =>
    match Json.decEqList x y with
    | isTrue h => isTrue (congrArg Json.arr h)
    | isFalse h => isFalse (fun e => h (Json.arr.inj e))
  | .arr _, .obj _ => isFalse (fun e => Json.noConfusion e)
  | .obj _, .undefined => isFalse (fun e => Json.noConfusion e)
  | .obj _, .null => isFalse (fun e => Json.noConfusion e)
  | .obj _, .bool _ => isFalse (fun e => Json.noConfusion e)
  | .obj _, .num _ => isFalse (fun e => Json.noConfusion e)
  | .obj _, .str _ => isFalse (fun e => Json.noConfusion e)
  | .obj _, .arr _ => isFalse (fun e => Json.noConfusion e)
  | .obj x, .obj y =>
    match Json.decEqProps x y with
    | isTrue h => isTrue (congrArg Json.obj h)
    | isFalse h => isFalse (fun e => h (Json.obj.inj e))
/-- Decision procedure for equality of arrays of values. -/
def Json.decEqList : (a b : List Json) → Decidable (a = b)
  | [], [] => isTrue rfl
  | [], _ :: _ => isFalse (fun e => List.noConfusion e)
  | _ :: _, [] => isFalse (fun e => List.noConfusion e)
  | x :: xs, y :: ys =>
    match Json.decEq x y, Json.decEqList xs ys with
    | isTrue h, isTrue t => isTrue (h ▸ t ▸ rfl)
    | isFalse h, _ => isFalse (fun e => h (List.cons.inj e).1)
    | _, isFalse t => isFalse (fun e => t (List.cons.inj e).2)
/-- Decision procedure for equality of property lists. -/
def Json.decEqProps : (a b : List (String × Json)) → Decidable (a = b)
  | [], [] => isTrue rfl
  | [], _ :: _ => isFalse (fun e => List.noConfusion e)
  | _ :: _, [] => isFalse (fun e => List.noConfusion e)
  | (k, x) :: xs, (l, y) :: ys =>
    if hk : k = l then
      match Json.decEq x y, Json.decEqProps xs ys with
      | isTrue h, isTrue t => isTrue (hk ▸ h ▸ t ▸ rfl)
      | isFalse h, _ => isFalse (fun e => h (Prod.mk.inj (List.cons.inj e).1).2)
      | _, isFalse t => isFalse (fun e => t (List.cons.inj e).2)
    else isFalse (fun e => hk (Prod.mk.inj (List.cons.inj e).1).1)
end

instance : DecidableEq Json := Json.decEq

/-! ## Objects -/

/-- Property read `o.k`: the value stored under `k`, `undefined` when there is none. -/
def prop (o : Obj) (k : String) : Json :=
  match o with
  | [] => .undefined
  | (k', v) :: rest => if k' = k then v else prop rest k

/-- Own property test: `k` is a property name of `o`. -/
def hasKey (o : Obj) (k : String) : Bool :=
  match o with
  | [] => false
  | (k', _) :: rest => if k' = k then true else hasKey rest k

/-- Property definition `k: v` inside an object literal: an existing property keeps
its place and takes the new value, a new property goes last. -/
def assign (o : Obj) (k : String) (v : Json) : Obj :=
  match o with
  | [] => [(k, v)]
  | (k', v') :: rest => if k' = k then (k', v) :: rest else (k', v') :: assign rest k v

/-- Spread `...source` inside an object literal whose properties so far are `target`:
the properties of `source` are defined one after the other. -/
def spread (target source : Obj) : Obj :=
  match source with
  | [] => target
  | (k, v) :: rest => spread (assign target k v) rest

/-- Every property name occurs once. -/
def WellFormed (o : Obj) : Prop := (o.map Prod.fst).Nodup

instance (o : Obj) : Decidable (WellFormed o) := by
  unfold WellFormed; infer_instance

/-! ## Record store and gateway (`server.js`) -/

/-- The two data files, each represented by the collection it holds. -/
structure Store where
  users : List Obj
  art : List Obj
deriving DecidableEq

/-- An HTTP response: status code and JSON body. -/
structure Response where
  status : Nat
  body : Json
deriving DecidableEq

/-- The record store after `initializeFiles` on an empty data directory. -/
def initializeFiles : Store :=
  { users := []
    art := [
      [("id", .num 1), ("title", .str "Cyber Punk City"), ("artist", .str "Demo Artist"),
       ("price", .num 2400), ("category", .str "Digital"),
       ("img", .str "https://images.unsplash.com/photo-1550684848-fac1c5b4e853?w=800")],
      [("id", .num 2), ("title", .str "Abstract Blue"), ("artist", .str "Demo Artist"),
       ("price", .num 1200), ("category", .str "Painting"),
       ("img", .str "https://images.unsplash.com/photo-1541963463532-d68292c34b19?w=800")]] }

def readUsers (s : Store) : List Obj := s.users

def writeUsers (users : List Obj) (s : Store) : Store := { s with users := users }

def readArt (s : Store) : List Obj := s.art

def writeArt (art : List Obj) (s : Store) : Store := { s with art := art }

/-- The test `x.id === parseInt(req.params.id)`: strict equality of the record's `id`
with the parsed identifier; `NaN` (`none`) equals nothing, and only a number equals
a number. -/
def idMatches (pid : Option Int) (x : Obj) : Bool :=
  match prop x "id", pid with
  | .num n, some m => n == m
  | _, _ => false

/-- `Array.prototype.findIndex`: position of the first element satisfying `p`;
`none` stands for `-1`. -/
def findIndex (p : Obj → Bool) : List Obj → Option Nat
  | [] => none
  | x :: xs => if p x then some 0 else (findIndex p xs).map (· + 1)

/-- `res.json(x)`: status 200 with body `x`. -/
def json (x : Json) : Response := { status := 200, body := x }

/-- GET /api/users. -/
def getUsers (s : Store) : Response × Store :=
  let users := readUsers s
  (json (.arr (users.map .obj)), s)

/-- POST /api/users. -/
def postUser (now : Int) (body : Obj) (s : Store) : Response × Store :=
  let users := readUsers s
  let newUser := assign (spread [] body) "id" (.num now)
  let users := users ++ [newUser]
  (json (.obj newUser), writeUsers users s)

/-- PUT /api/users/:id. -/
def putUser (pid : Option Int) (body : Obj) (s : Store) : Response × Store :=
  let users := readUsers s
  match findIndex (idMatches pid) users with
  | some index =>
    let users := users.set index (spread (spread [] (users.getD index [])) body)
    (json (.obj (users.getD index [])), writeUsers users s)
  | none =>
    ({ status := 404, body := .obj [("error", .str "User not found")] }, s)

/-- GET /api/art. -/
def getArt (s : Store) : Response × Store :=
  let art := readArt s
  (json (.arr (art.map .obj)), s)

/-- POST /api/art. -/
def postArt (now : Int) (body : Obj) (s : Store) : Response × Store :=
  let art := readArt s
  let newArt := assign (spread [] body) "id" (.num now)
  let art := newArt :: art
  (json (.obj newArt), writeArt art s)

/-- DELETE /api/art/:id. -/
def deleteArt (pid : Option Int) (s : Store) : Response × Store :=
  let art := readArt s
  let filteredArt := art.filter (fun a => !idMatches pid a)
  (json (.obj [("success", .bool true)]), writeArt filteredArt s)

/-! ## Client (`src/App.jsx`)

The state of `Stage3App` together with the session storage entry `luma_session`.
Handlers are functions on that state and return the calls they make (alerts, requests
to the gateway, uncaught errors).  What an awaited request resolves to is an input of
the handler that awaits it.  Users and artworks held by the client are objects. -/

/-- Strict equality `a === b` of two values that are not the same object in memory:
primitives compare by value, arrays and objects are never equal. -/
def strictEq : Json → Json → Bool
  | .undefined, .undefined => true
  | .null, .null => true
  | .bool a, .bool b => a == b
  | .num a, .num b => a == b
  | .str a, .str b => a == b
  | _, _ => false

/-- The elements produced by the array spread `...v`: the items of an array, the
characters of a string; `none` when `v` is not iterable (a `TypeError`). -/
def iterate : Json → Option (List Json)
  | .arr items => some items
  | .str s => some (s.toList.map fun c => .str (String.singleton c))
  | _ => none

/-- The `users` state: the loaded list, or the promise that signup stores there. -/
inductive UsersState where
  | list (users : List Obj) : UsersState
  | promise : UsersState
deriving DecidableEq

/-- Toast texts; `welcomeBack name` is the template "Welcome back, ${name}". -/
inductive Notice where
  | text (msg : String) : Notice
  | welcomeBack (name : Json) : Notice
deriving DecidableEq

/-- Calls made by a handler. -/
inductive Effect where
  | alert (msg : String) : Effect
  | usersAdd (user : Obj) : Effect
  | usersUpdate (updatedUser : Obj) : Effect
  | artAdd (newArt : Obj) : Effect
  | typeError (msg : String) : Effect
deriving DecidableEq

/-- State of the client: the `useState` cells of `Stage3App` and the session entry. -/
structure Client where
  user : Option Obj
  users : UsersState
  artworks : List Obj
  view : String
  notification : Option Notice
  session : Option Obj
deriving DecidableEq

/-- The state at first render, given the content of the session storage. -/
def Client.init (session : Option Obj) : Client :=
  { user := none, users := .list [], artworks := [], view := "gallery",
    notification := none, session := session }

/-- The form state of `AuthScreen`. -/
structure FormData where
  email : String
  password : String
  name : String
  role : String
  address : String
  phone : String
  bio : String
deriving DecidableEq

/-- The object held by `formData`. -/
def FormData.toObj (f : FormData) : Obj :=
  [("email", .str f.email), ("password", .str f.password), ("name", .str f.name),
   ("role", .str f.role), ("address", .str f.address), ("phone", .str f.phone),
   ("bio", .str f.bio)]

/-- The initial value of `formData`. -/
def FormData.initial : FormData :=
  { email := "", password := "", name := "", role := "buyer", address := "", phone := "",
    bio := "" }

/-- `notify(msg)`: shows the toast (its removal after three seconds is not modelled). -/
def notify (msg : Notice) (c : Client) : Client := { c with notification := some msg }

/-- `handleLogin(u)`. -/
def handleLogin (u : Obj) (c : Client) : Client :=
  notify (.welcomeBack (prop u "name")) { c with user := some u, session := some u }

/-- `handleLogout()`. -/
def handleLogout (c : Client) : Client :=
  { c with user := none, session := none, view := "gallery" }

/-- `handleUpdateUser(updatedUser)`, where `result` is what the awaited
`LumaDB.users.update(updatedUser)` resolves to: the record answered by the gateway,
or `none` for `null`. -/
def handleUpdateUser (updatedUser : Obj) (result : Option Obj) (c : Client) :
    Client × List Effect :=
  match result with
  | some result =>
    let c := { c with user := some result }
    match c.users with
    | .list users =>
      let c := { c with users := .list (users.map fun u =>
        if strictEq (prop u "id") (prop result "id") then result else u) }
      let c := { c with session := some result }
      (notify (.text "Profile Updated!") c, [.usersUpdate updatedUser])
    | .promise =>
      (c, [.usersUpdate updatedUser, .typeError "users.map is not a function"])
  | none =>
    (notify (.text "Failed to update profile") c, [.usersUpdate updatedUser])

/-- `handleUploadArt(newArt)`, where `result` is what the awaited
`LumaDB.art.add(newArt)` resolves to. -/
def handleUploadArt (newArt : Obj) (result : Option Obj) (c : Client) :
    Client × List Effect :=
  match result with
  | some result =>
    (notify (.text "Artwork Uploaded Successfully!")
      { c with artworks := result :: c.artworks }, [.artAdd newArt])
  | none =>
    (notify (.text "Failed to upload artwork") c, [.artAdd newArt])

/-- `handleBuy(art)` at clock reading `now` and local date string `date`; `result` is
what the update request it may issue resolves to. -/
def handleBuy (art : Obj) (now : Int) (date : String) (result : Option Obj) (c : Client) :
    Client × List Effect :=
  match c.user with
  | none => (c, [.typeError "Cannot read properties of null (reading 'role')"])
  | some user =>
    if prop user "role" ≠ .str "buyer" then
      (c, [.alert "Please create a Buyer account to purchase."])
    else
      let newOrder : Obj :=
        [("id", .num now), ("title", prop art "title"), ("price", prop art "price"),
         ("date", .str date), ("img", prop art "img")]
      match iterate (prop user "orders") with
      | none => (c, [.typeError "user.orders is not iterable"])
      | some orders =>
        let updatedUser := assign (spread [] user) "orders" (.arr (.obj newOrder :: orders))
        handleUpdateUser updatedUser result
          (notify (.text "Order Placed! Check your Profile.") c)

/-- `handleSubmit` of `AuthScreen` with the form state `formData`, at clock reading
`now`. -/
def handleSubmit (isSignup : Bool) (formData : FormData) (now : Int) (c : Client) :
    Client × List Effect :=
  match c.users with
  | .promise => (c, [.typeError "users.find is not a function"])
  | .list users =>
    if isSignup then
      if (users.find? fun u => strictEq (prop u "email") (.str formData.email)).isSome then
        (c, [.alert "Email taken!"])
      else
        let newUser :=
          assign (assign (spread [] formData.toObj) "id" (.num now)) "orders" (.arr [])
        (handleLogin newUser { c with users := .promise }, [.usersAdd newUser])
    else
      match users.find? fun u => strictEq (prop u "email") (.str formData.email) &&
          strictEq (prop u "password") (.str formData.password) with
      | some found => (handleLogin found c, [])
      | none => (c, [.alert "Invalid credentials"])

/-! ## Client and gateway together

The requests of `LumaDB` are answered by the gateway above.  A request body travels
as `JSON.stringify` text: properties whose value is `undefined` are left out and
`undefined` array items become `null`. -/

mutual
/-- The value read back from the JSON text of a value that is an array item or a
property value. -/
def Json.wire : Json → Json
  | .undefined => .null
  | .null => .null
  | .bool b => .bool b
  | .num n => .num n
  | .str s => .str s
  | .arr items => .arr (wireList items)
  | .obj props => .obj (wireProps props)
/-- The array read back from the JSON text of an array. -/
def wireList : List Json → List Json
  | [] => []
  | x :: xs => Json.wire x :: wireList xs
/-- The object read back from the JSON text of an object. -/
def wireProps : List (String × Json) → List (String × Json)
  | [] => []
  | (_, .undefined) :: ps => wireProps ps
  | (k, v) :: ps => (k, Json.wire v) :: wireProps ps
end

/-- The value of a digit character in radix 16 or less. -/
def digitValue (c : Char) : Option Nat :=
  if '0' ≤ c ∧ c ≤ '9' then some (c.toNat - 48)
  else if 'a' ≤ c ∧ c ≤ 'f' then some (c.toNat - 87)
  else if 'A' ≤ c ∧ c ≤ 'F' then some (c.toNat - 55)
  else none

/-- The number read from the longest prefix of digits of the given radix, continuing
from `acc`; `acc` is `none` as long as no digit was read. -/
def readDigits (radix : Nat) : List Char → Option Nat → Option Nat
  | [], acc => acc
  | c :: cs, acc =>
    match digitValue c with
    | some d => if d < radix then readDigits radix cs (some (acc.getD 0 * radix + d)) else acc
    | none => acc

/-- `parseInt(text)` without a radix: leading blanks are skipped, a sign is read, a
prefix `0x` selects radix 16, and the longest prefix of digits gives the number; `none`
is `NaN`. -/
def parseInt (text : String) : Option Int :=
  let cs := text.toList.dropWhile fun c => c = ' ' ∨ c = '\t' ∨ c = '\n' ∨ c = '\r'
  let signed : Bool × List Char :=
    match cs with
    | '-' :: rest => (true, rest)
    | '+' :: rest => (false, rest)
    | rest => (false, rest)
  let digits : Option Nat :=
    match signed.2 with
    | '0' :: 'x' :: rest => readDigits 16 rest none
    | '0' :: 'X' :: rest => readDigits 16 rest none
    | rest => readDigits 10 rest none
  match digits with
  | some n => some (if signed.1 then -(n : Int) else (n : Int))
  | none => none

mutual
/-- The text of a value inside a template literal (`String(v)`), for values other than
numbers. -/
def render : Json → String
  | .undefined => "undefined"
  | .null => "null"
  | .bool b => if b then "true" else "false"
  | .num n => toString n
  | .str s => s
  | .arr items => renderItems items
  | .obj _ => "[object Object]"
/-- The text of an array: its items joined by commas, `null` and `undefined` items
giving no text. -/
def renderItems : List Json → String
  | [] => ""
  | [.null] => ""
  | [.undefined] => ""
  | [x] => render x
  | .null :: xs => "," ++ renderItems xs
  | .undefined :: xs => "," ++ renderItems xs
  | x :: xs => render x ++ "," ++ renderItems xs
end

/-- The value of `parseInt(req.params.id)` for the request path `/users/${id}`; `none` is
`NaN`, and also stands for a path that the route does not match, which is answered 404
without a write as well. A number is rendered as its decimal numeral, which `parseInt`
reads back (numbers from 1e21 on, which the engine renders with an exponent, are
outside the model). Any other value is rendered as text; text made of letters,
digits, blanks and the signs `-`, `+`, `_`, `,` reaches the handler as it is and
is read by `parseInt`; other text (with `/`, `?`, `#`, `%` and the like, which the URL
parser and the router treat specially) is not modelled and counts as unmatched. -/
def routeId : Json → Option Int
  | .num n => some n
  | v =>
    if (render v).toList.all fun c =>
        c.isAlphanum ∨ c = ' ' ∨ c = '-' ∨ c = '+' ∨ c = '_' ∨ c = ','
    then parseInt (render v)
    else none

/-- `res.ok`: the status is in the range 200 to 299. -/
def Response.ok (res : Response) : Bool := decide (200 ≤ res.status ∧ res.status ≤ 299)

/-- `res.ok ? await res.json() : null` for a response whose body on success is a record;
`none` when `fetch` failed (`res` is `none`) or the status is not ok. -/
def resultOf (res : Option Response) : Option Obj :=
  match res with
  | some res => if res.ok then (match res.body with | .obj r => some r | _ => none) else none
  | none => none

/-- The `fetch` of `LumaDB.users.update(updatedUser)`: the gateway's answer to
`PUT /api/users/${updatedUser.id}` and the store after it; no answer and no change when
the request does not get through (`online` false). -/
def fetchPutUser (online : Bool) (updatedUser : Obj) (s : Store) : Option Response × Store :=
  if online then
    let r := putUser (routeId (prop updatedUser "id")) (wireProps updatedUser) s
    (some r.1, r.2)
  else (none, s)

/-- The `fetch` of `LumaDB.users.add(user)`, answered at the server clock reading `now`. -/
def fetchPostUser (online : Bool) (now : Int) (user : Obj) (s : Store) :
    Option Response × Store :=
  if online then
    let r := postUser now (wireProps user) s
    (some r.1, r.2)
  else (none, s)

/-- `LumaDB.users.update(updatedUser)`: what the call resolves to, and the store. The
rendering of the id into the path and its parse by the gateway are library code:
`route` gives `parseInt(req.params.id)` for the value of `updatedUser.id`, and `routeId`
is the route of the worked examples. -/
def LumaDB.users.update (route : Json → Option Int) (online : Bool) (updatedUser : Obj)
    (s : Store) : Option Obj × Store :=
  if online then
    let r := putUser (route (prop updatedUser "id")) (wireProps updatedUser) s
    (resultOf (some r.1), r.2)
  else (none, s)

/-- `LumaDB.users.add(user)`: what the call resolves to, and the store. -/
def LumaDB.users.add (online : Bool) (now : Int) (user : Obj) (s : Store) : Option Obj × Store :=
  let r := fetchPostUser online now user s
  (resultOf r.1, r.2)

/-- The client and the gateway's store. -/
structure World where
  client : Client
  server : Store
deriving DecidableEq

/-- The first update request among the calls of a handler. -/
def requestOf : List Effect → Option Obj
  | [] => none
  | .usersUpdate updatedUser :: _ => some updatedUser
  | _ :: rest => requestOf rest

/-- The argument that `handleFileChange` and `handleDrop` of `ProfileView` pass to
`onUpdateUser` for the encoded image `base64`: `{ ...user, avatar: base64 }`. -/
def handleFileChange (base64 : String) (user : Obj) : Obj :=
  assign (spread [] user) "avatar" (.str base64)

/-- Submitting the signup form: `handleSubmit` on the client, and the insert request it
issues answered by the gateway at the server clock reading `serverNow`. -/
def signup (online : Bool) (formData : FormData) (now serverNow : Int) (w : World) : World :=
  let r := handleSubmit true formData now w.client
  match r.2 with
  | [.usersAdd newUser] =>
    { client := r.1, server := (LumaDB.users.add online serverNow newUser w.server).2 }
  | _ => { w with client := r.1 }

/-- Actions of a signed-in user that go through the profile-update path. -/
inductive Action where
  | changeAvatar (base64 : String) : Action
  | buy (art : Obj) (now : Int) (date : String) : Action
deriving DecidableEq

/-- One action with its request answered by the gateway before anything else happens:
the new state and the gateway's answer, if a request was issued and got through. The
request that `handleBuy` issues does not depend on the answer, so it is read off a run
of `handleBuy` without one. -/
def perform (online : Bool) (a : Action) (w : World) : World × Option Response :=
  match a with
  | .changeAvatar base64 =>
    match w.client.user with
    | some user =>
      let updatedUser := handleFileChange base64 user
      let r := fetchPutUser online updatedUser w.server
      ({ client := (handleUpdateUser updatedUser (resultOf r.1) w.client).1, server := r.2 },
        r.1)
    | none => (w, none)
  | .buy art now date =>
    match requestOf (handleBuy art now date none w.client).2 with
    | some updatedUser =>
      let r := fetchPutUser online updatedUser w.server
      ({ client := (handleBuy art now date (resultOf r.1) w.client).1, server := r.2 }, r.1)
    | none => ({ w with client := (handleBuy art now date none w.client).1 }, none)

/-- A sequence of actions, each with its own transport outcome: the final state and
the answers received, in order. -/
def performAll : List (Bool × Action) → World → World × List Response
  | [], w => (w, [])
  | (online, a) :: rest, w =>
    let r := perform online a w
    let r' := performAll rest r.1
    (r'.1, (match r.2 with | some res => [res] | none => []) ++ r'.2)

/-! ## The client as a transition system

The handlers of the client suspend twice on the way to a profile update.
`handleFileChange` and `handleDrop` of `ProfileView` await `fileToBase64` and only then
call `onUpdateUser` with the `user` of the render in which the image was chosen;
`handleUpdateUser` awaits its request and runs the rest of its body when the answer
arrives, with the `users` it closed over.  `App` keeps what is suspended: the images
being encoded and the calls waiting for their answer. -/

/-- A call of `handleFileChange` or `handleDrop` suspended at `await fileToBase64`: the
`user` of the render in which the image was chosen and the `users` that the
`onUpdateUser` of that render closed over. -/
structure Encoding where
  user : Obj
  users : UsersState
deriving DecidableEq

/-- A call of `handleUpdateUser` suspended at its `await`: its argument, the `users`
state it closed over and what the awaited call will resolve to. -/
structure Pending where
  updatedUser : Obj
  users : UsersState
  result : Option Obj
deriving DecidableEq

/-- The client, the gateway's store, the images being encoded and the suspended calls
of `handleUpdateUser`. -/
structure App where
  client : Client
  server : Store
  encoding : List Encoding
  pending : List Pending
deriving DecidableEq

/-- The application at first render. -/
def App.init (session : Option Obj) (server : Store) : App :=
  { client := Client.init session, server := server, encoding := [], pending := [] }

/-- The body of `handleUpdateUser` after its `await`, resumed with `result` in the
client state `c`; `users` is the state the call closed over. -/
def resumeUpdateUser (users : UsersState) (result : Option Obj) (c : Client) : Client :=
  match result with
  | some result =>
    let c := { c with user := some result }
    match users with
    | .list users =>
      let c := { c with users := .list (users.map fun u =>
        if strictEq (prop u "id") (prop result "id") then result else u) }
      let c := { c with session := some result }
      notify (.text "Profile Updated!") c
    | .promise => c
  | none => notify (.text "Failed to update profile") c

/-- The completion of `loadData` with the loaded collections: `setUsers`,
`setArtworks` and the session check. -/
def loadData (loadedUsers loadedArt : List Obj) (c : Client) : Client :=
  let c := { c with users := .list loadedUsers, artworks := loadedArt }
  match c.session with
  | some sessionUser => { c with user := some sessionUser }
  | none => c

/-- `LumaDB.users.getAll()`: the stored users, or `[]` when the request fails. -/
def LumaDB.users.getAll (online : Bool) (s : Store) : List Obj :=
  if online then readUsers s else []

/-- `LumaDB.art.getAll()`: the stored artworks, or `[]` when the request fails. -/
def LumaDB.art.getAll (online : Bool) (s : Store) : List Obj :=
  if online then readArt s else []

/-- The buttons of the navigation bar: the logo, Gallery, Studio and the profile
button. -/
inductive NavButton where
  | logo : NavButton
  | gallery : NavButton
  | studio : NavButton
  | profile : NavButton
deriving DecidableEq

/-- A click on a navigation button. The bar is rendered only for a signed-in user, and
the Studio button only when `user.role === 'artist'`. -/
def click (b : NavButton) (c : Client) : Client :=
  match c.user with
  | none => c
  | some user =>
    match b with
    | .logo => { c with view := "gallery" }
    | .gallery => { c with view := "gallery" }
    | .studio => if prop user "role" = .str "artist" then { c with view := "dashboard" } else c
    | .profile => { c with view := "profile" }

/-- The first insert request among the calls of a handler. -/
def addRequestOf : List Effect → Option Obj
  | [] => none
  | .usersAdd user :: _ => some user
  | _ :: rest => addRequestOf rest

/-- `handleUpdateUser(updatedUser)` up to its `await`, for the handler that closed over
`users`: the gateway receives the request and the call waits for the answer. -/
def issueUpdate (route : Json → Option Int) (online : Bool) (users : UsersState)
    (updatedUser : Obj) (a : App) : App :=
  let r := LumaDB.users.update route online updatedUser a.server
  let p : Pending := { updatedUser := updatedUser, users := users, result := r.1 }
  { a with server := r.2, pending := a.pending ++ [p] }

/-- What can happen to the application: `loadData` completes; the form of `AuthScreen`
is submitted; a navigation button or the logout button is clicked; an image is chosen
or dropped in `ProfileView`; the encoding of the `i`-th chosen image ends, with the
encoded image or with a reader error (`none`); a Buy button is clicked in
`GalleryView`; the answer to the `i`-th waiting call of `handleUpdateUser` arrives.
`online` tells whether the request of the event gets through. -/
inductive Event where
  | restore (online : Bool) : Event
  | submit (isSignup : Bool) (formData : FormData) (now serverNow : Int) (online : Bool) : Event
  | click (b : NavButton) : Event
  | logout : Event
  | chooseImage : Event
  | encoded (i : Nat) (base64 : Option String) (online : Bool) : Event
  | buy (art : Obj) (now : Int) (date : String) (online : Bool) : Event
  | answer (i : Nat) : Event
deriving DecidableEq

/-- One event. An event whose control is not rendered in the current state (the form
while a user is signed in; the bar, `ProfileView` or a Buy button otherwise) changes
nothing. -/
def step (route : Json → Option Int) (e : Event) (a : App) : App :=
  match e with
  | .restore online =>
    let loadedUsers := LumaDB.users.getAll online a.server
    let loadedArt := LumaDB.art.getAll online a.server
    { a with client := loadData loadedUsers loadedArt a.client }
  | .submit isSignup formData now serverNow online =>
    match a.client.user with
    | some _ => a
    | none =>
      let r := handleSubmit isSignup formData now a.client
      match addRequestOf r.2 with
      | some newUser =>
        let r' := LumaDB.users.add online serverNow newUser a.server
        { a with client := r.1, server := r'.2 }
      | none => { a with client := r.1 }
  | .click b => { a with client := click b a.client }
  | .logout =>
    match a.client.user with
    | some _ => { a with client := handleLogout a.client }
    | none => a
  | .chooseImage =>
    match a.client.user with
    | some user =>
      if a.client.view = "profile" then
        let e : Encoding := { user := user, users := a.client.users }
        { a with encoding := a.encoding ++ [e] }
      else a
    | none => a
  | .encoded i base64 online =>
    match a.encoding[i]? with
    | some e =>
      let a := { a with encoding := a.encoding.eraseIdx i }
      match base64 with
      | some base64 => issueUpdate route online e.users (handleFileChange base64 e.user) a
      | none => a
    | none => a
  | .buy art now date online =>
    match a.client.user with
    | some user =>
      if a.client.view = "gallery" ∧ prop user "role" = .str "buyer" then
        match requestOf (handleBuy art now date none a.client).2 with
        | some updatedUser =>
          issueUpdate route online a.client.users updatedUser
            { a with client := notify (.text "Order Placed! Check your Profile.") a.client }
        | none => { a with client := (handleBuy art now date none a.client).1 }
      else a
    | none => a
  | .answer i =>
    match a.pending[i]? with
    | some p =>
      { a with client := resumeUpdateUser p.users p.result a.client,
               pending := a.pending.eraseIdx i }
    | none => a

/-- A run of events. -/
def run (route : Json → Option Int) (events : List Event) (a : App) : App :=
  events.foldl (fun a e => step route e a) a

/-- One event of a run in which nobody logs out while a profile update is under way: a
logout click while an image is being encoded or a call of `handleUpdateUser` is waiting
for its answer is left out. -/
def stepSettled (route : Json → Option Int) (e : Event) (a : App) : App :=
  match e with
  | .logout => if a.encoding = [] ∧ a.pending = [] then step route .logout a else a
  | e => step route e a

/-- A run of events in which nobody logs out while a profile update is under way. -/
def runSettled (route : Json → Option Int) (events : List Event) (a : App) : App :=
  events.foldl (fun a e => stepSettled route e a) a

/-- A user record as the data model has it: well formed, with a `role`. -/
def HasRole (o : Obj) : Prop := WellFormed o ∧ prop o "role" ≠ .undefined

instance (o : Obj) : Decidable (HasRole o) := by
  unfold HasRole; infer_instance

/-- The test `user.role === 'artist'` under which the Studio button is rendered. -/
def isArtist (o : Obj) : Bool := decide (prop o "role" = .str "artist")

/-- A user record with a role that is (`artist = true`) or is not the artist's. -/
def Member (artist : Bool) (o : Obj) : Prop := HasRole o ∧ isArtist o = artist

/-- Every record of a loaded `users` list has a role. -/
def UsersState.HasRoles : UsersState → Prop
  | .list users => ∀ u ∈ users, HasRole u
  | .promise => True

/-- The facts kept by every event of a settled run over records that have roles: the
stored users, the loaded users and the session entry have roles; without a signed-in
user nothing is under way and the Dashboard is not shown; and with a signed-in user,
the session entry, the users of the images being encoded and the answers under way
are artists exactly when that user is, the Dashboard being shown only to an artist. -/
def Settled (a : App) : Prop :=
  (∀ u ∈ a.server.users, HasRole u) ∧
  a.client.users.HasRoles ∧
  (∀ v, a.client.session = some v → HasRole v) ∧
  (∀ e ∈ a.encoding, e.users.HasRoles) ∧
  (∀ p ∈ a.pending, p.users.HasRoles) ∧
  (a.client.user = none →
    a.encoding = [] ∧ a.pending = [] ∧ a.client.view ≠ "dashboard") ∧
  (∀ u, a.client.user = some u →
    HasRole u ∧
    (∀ v, a.client.session = some v → Member (isArtist u) v) ∧
    (∀ e ∈ a.encoding, Member (isArtist u) e.user) ∧
    (∀ p ∈ a.pending, ∀ r, p.result = some r → Member (isArtist u) r) ∧
    (a.client.view = "dashboard" → isArtist u = true))

/-! ## Sample data -/

/-- A store with three users, two of them sharing the id 5. -/
def sampleStore : Store :=
  { users := [
      [("id", .num 3), ("email", .str "b@x.com"), ("role", .str "artist")],
      [("id", .num 5), ("email", .str "a@x.com"), ("name", .str "Ann"), ("role", .str "buyer")],
      [("id", .num 5), ("email", .str "c@x.com"), ("name", .str "Cy")]]
    art := initializeFiles.art }

/-- The body of the spec's scenario A. -/
def scenarioA : Obj :=
  [("email", .str "a@x.com"), ("password", .str "p"), ("name", .str "Ann"),
   ("role", .str "buyer")]

/-- A buyer with one earlier order. -/
def sampleBuyer : Obj :=
  [("email", .str "a@x.com"), ("password", .str "p"), ("name", .str "Ann"),
   ("role", .str "buyer"), ("id", .num 5),
   ("orders", .arr [.obj [("id", .num 11), ("title", .str "Abstract Blue"),
     ("price", .num 1200), ("date", .str "1/2/2024"), ("img", .str "blue.png")]])]

/-- An artist. -/
def sampleArtist : Obj :=
  [("email", .str "b@x.com"), ("password", .str "q"), ("name", .str "Bo"),
   ("role", .str "artist"), ("id", .num 3), ("orders", .arr [])]

/-- A client showing the seed gallery to the signed-in `user`. -/
def sampleClient (user : Obj) : Client :=
  { user := some user, users := .list [sampleArtist, sampleBuyer],
    artworks := initializeFiles.art, view := "gallery", notification := none,
    session := some user }

/-- The first seed artwork (id 1, price 2400). -/
def seedArt : Obj :=
  [("id", .num 1), ("title", .str "Cyber Punk City"), ("artist", .str "Demo Artist"),
   ("price", .num 2400), ("category", .str "Digital"),
   ("img", .str "https://images.unsplash.com/photo-1550684848-fac1c5b4e853?w=800")]

/-- A client at the sign-in screen with two loaded users. -/
def sampleGuest : Client :=
  { user := none, users := .list [sampleArtist, sampleBuyer],
    artworks := initializeFiles.art, view := "gallery", notification := none,
    session := none }

/-- A signup form filled in with the given email, the role left as it was. -/
def sampleForm (email : String) : FormData :=
  { FormData.initial with
    email := email, password := "pw", name := "Dee", address := "1 Main St",
    phone := "555" }

/-- A login form with the given email and password. -/
def loginForm (email password : String) : FormData :=
  { FormData.initial with email := email, password := password }

/-- An update body that carries an `id`. -/
def bodyWithId : Obj := [("id", .num 9), ("name", .str "Bea")]

/-- The object `{ ...formData, id, orders: [] }` for the form `f`. -/
def localRecord (f : FormData) (id : Int) : Obj :=
  f.toObj ++ [("id", .num id), ("orders", .arr [])]

/-- The sign-in screen of `sampleGuest` in front of the gateway holding `sampleStore`. -/
def sampleWorld : World := { client := sampleGuest, server := sampleStore }

/-- An avatar update and a purchase, both getting through to the gateway. -/
def sampleActions : List (Bool × Action) :=
  [(true, .changeAvatar "data:image/png;base64,AAAA"),
   (true, .buy seedArt 1700000009999 "3/4/2024")]

/-- A store holding the artist and the buyer, and the seed artworks. -/
def marketStore : Store := { users := [sampleArtist, sampleBuyer], art := initializeFiles.art }

/-- The buyer signs in and buys; before the answer arrives the buyer logs out, the
artist signs in and opens the Studio; then the answer to the buyer's update arrives. -/
def staleAnswerTrace : List Event :=
  [.restore true,
   .submit false (loginForm "a@x.com" "p") 0 0 true,
   .buy seedArt 1700000009999 "3/4/2024" true,
   .logout,
   .submit false (loginForm "b@x.com" "q") 0 0 true,
   .click .studio,
   .answer 0]

/-- A store in which two users have the id 5, an artist and a buyer, and a third user
has no role and the text "5" as id. -/
def twinStore : Store :=
  { users := [
      [("id", .num 5), ("email", .str "b@x.com"), ("password", .str "q"), ("name", .str "Bo"),
       ("role", .str "artist"), ("orders", .arr [])],
      [("id", .num 5), ("email", .str "a@x.com"), ("password", .str "p"), ("name", .str "Ann"),
       ("role", .str "buyer"), ("orders", .arr [])],
      [("id", .str "5"), ("email", .str "z@x.com"), ("password", .str "z"),
       ("name", .str "Zed")]]
    art := initializeFiles.art }

/-- The user without a role signs in and chooses two images; both updates are sent
before the first answer arrives; after the first answer the Studio is opened, then the
second answer arrives. Nobody logs out. -/
def twinTrace : List Event :=
  [.restore true,
   .submit false (loginForm "z@x.com" "z") 0 0 true,
   .click .profile,
   .chooseImage,
   .chooseImage,
   .encoded 0 (some "data:image/png;base64,AAAA") true,
   .encoded 0 (some "data:image/png;base64,BBBB") true,
   .answer 0,
   .click .studio,
   .answer 0]

/-- The artist signs in, chooses an image and opens the Studio while the image is
encoded; then the update is sent and answered. -/
def studioTrace : List Event :=
  [.restore true,
   .submit false (loginForm "b@x.com" "q") 0 0 true,
   .click .profile,
   .chooseImage,
   .click .studio,
   .encoded 0 (some "data:image/png;base64,AAAA") true,
   .answer 0]

/-- The buyer chooses an image and logs out while it is encoded; the artist signs in and
opens the Studio; then the encoding ends, and the update is sent and answered. -/
def staleImageTrace : List Event :=
  [.restore true,
   .submit false (loginForm "a@x.com" "p") 0 0 true,
   .click .profile,
   .chooseImage,
   .logout,
   .submit false (loginForm "b@x.com" "q") 0 0 true,
   .click .studio,
   .encoded 0 (some "data:image/png;base64,AAAA") true,
   .answer 0]

/-- The store after POST /api/users with the body of scenario A into an empty user
collection. -/
def scenarioAStore : Store :=
  (postUser 1700000000000 scenarioA { users := [], art := initializeFiles.art }).2

/-- The client after loading `scenarioAStore` and signing in as the user of scenario A. -/
def scenarioAClient : Client :=
  (handleSubmit false (loginForm "a@x.com" "p") 0
    (loadData scenarioAStore.users scenarioAStore.art (Client.init none))).1

/-- A request body. -/
def sampleBody : Obj := [("name", .str "Anna"), ("phone", .str "555")]

/-! ## Lemmas on objects -/

theorem prop_assign (o : Obj) (k : String) (v : Json) (k' : String) :
    prop (assign o k v) k' = if k = k' then v else prop o k' := by
  induction o with
  | nil => simp [assign, prop]
  | cons p rest ih =>
    obtain ⟨a, w⟩ := p
    by_cases h : a = k
    · subst h
      by_cases h' : a = k' <;> simp [assign, prop, h']
    · by_cases h' : a = k'
      · subst h'
        simp [assign, prop, h, Ne.symm h]
      · simp [assign, prop, h, h', ih]

theorem hasKey_assign (o : Obj) (k : String) (v : Json) (k' : String) :
    hasKey (assign o k v) k' = (hasKey o k' || decide (k = k')) := by
  induction o with
  | nil => simp [assign, hasKey]
  | cons p rest ih =>
    obtain ⟨a, w⟩ := p
    by_cases h : a = k
    · subst h
      by_cases h' : a = k' <;> simp [assign, hasKey, h']
    · by_cases h' : a = k'
      · subst h'
        simp [assign, hasKey, h]
      · simp [assign, hasKey, h, h', ih]

theorem hasKey_eq_true_iff (o : Obj) (k : String) :
    hasKey o k = true ↔ k ∈ o.map Prod.fst := by
  induction o with
  | nil => simp [hasKey]
  | cons p rest ih =>
    obtain ⟨a, w⟩ := p
    by_cases h : a = k
    · simp [hasKey, h]
    · simp [hasKey, h, ih, Ne.symm h]

theorem assign_of_hasKey_false (o : Obj) (k : String) (v : Json)
    (h : hasKey o k = false) : assign o k v = o ++ [(k, v)] := by
  induction o with
  | nil => simp [assign]
  | cons p rest ih =>
    obtain ⟨a, w⟩ := p
    by_cases h' : a = k
    · simp [hasKey, h'] at h
    · simp [hasKey, h'] at h
      simp [assign, h', ih h]

theorem spread_eq_append (a b : Obj) (h : WellFormed (a ++ b)) :
    spread a b = a ++ b := by
  induction b generalizing a with
  | nil => simp [spread]
  | cons p rest ih =>
    obtain ⟨k, v⟩ := p
    have hk : hasKey a k = false := by
      rw [Bool.eq_false_iff]
      intro hc
      rw [hasKey_eq_true_iff] at hc
      unfold WellFormed at h
      rw [List.map_append, List.nodup_append] at h
      exact h.2.2 hc (by simp)
    have h' : WellFormed ((a ++ [(k, v)]) ++ rest) := by
      simpa [List.append_assoc] using h
    simp only [spread]
    rw [assign_of_hasKey_false a k v hk, ih _ h']
    simp [List.append_assoc]

/-- Copying a well-formed object with `{...o}` yields the object itself. -/
theorem spread_nil (o : Obj) (h : WellFormed o) : spread [] o = o := by
  simpa using spread_eq_append [] o (by simpa using h)

theorem prop_spread (a b : Obj) (h : WellFormed b) (k : String) :
    prop (spread a b) k = if hasKey b k = true then prop b k else prop a k := by
  induction b generalizing a with
  | nil => simp [spread, hasKey]
  | cons p rest ih =>
    obtain ⟨c, v⟩ := p
    have hw : WellFormed rest := by
      unfold WellFormed at h ⊢
      simp only [List.map_cons, List.nodup_cons] at h
      exact h.2
    have hc : hasKey rest c = false := by
      rw [Bool.eq_false_iff]
      intro hc
      rw [hasKey_eq_true_iff] at hc
      unfold WellFormed at h
      simp only [List.map_cons, List.nodup_cons] at h
      exact h.1 hc
    simp only [spread]
    rw [ih _ hw, prop_assign]
    by_cases h' : c = k
    · subst h'
      simp [hasKey, prop, hc]
    · simp [hasKey, prop, h']

theorem hasKey_spread (a b : Obj) (k : String) :
    hasKey (spread a b) k = (hasKey a k || hasKey b k) := by
  induction b generalizing a with
  | nil => simp [spread, hasKey]
  | cons p rest ih =>
    obtain ⟨c, v⟩ := p
    simp only [spread]
    rw [ih, hasKey_assign]
    by_cases h' : c = k
    · simp [hasKey, h']
    · simp [hasKey, h']

theorem prop_spread_nil (o : Obj) (h : WellFormed o) (k : String) :
    prop (spread [] o) k = prop o k := by
  rw [spread_nil o h]

theorem strictEq_str (v : Json) (e : String) : strictEq v (.str e) = true ↔ v = .str e := by
  cases v <;> simp [strictEq]

/-! ## Lemmas on `findIndex` -/

theorem findIndex_eq_none (p : Obj → Bool) (l : List Obj) :
    findIndex p l = none ↔ ∀ x ∈ l, p x = false := by
  induction l with
  | nil => simp [findIndex]
  | cons x xs ih =>
    by_cases h : p x = true
    · simp [findIndex, h]
    · simp [findIndex, h, ih]

theorem findIndex_eq_some (p : Obj → Bool) (l : List Obj) (i : Nat)
    (h : findIndex p l = some i) :
    ∃ x, l[i]? = some x ∧ p x = true ∧ ∀ j, j < i → ∀ y, l[j]? = some y → p y = false := by
  induction l generalizing i with
  | nil => simp [findIndex] at h
  | cons x xs ih =>
    by_cases hx : p x = true
    · simp [findIndex, hx] at h
      subst h
      exact ⟨x, by simp, hx, by intro j hj; omega⟩
    · simp [findIndex, hx] at h
      obtain ⟨i', hi', rfl⟩ := h
      obtain ⟨y, hy, hpy, hlt⟩ := ih i' hi'
      refine ⟨y, by simpa using hy, hpy, ?_⟩
      intro j hj z hz
      cases j with
      | zero =>
        simp at hz
        subst hz
        simpa using hx
      | succ j' =>
        simp at hz
        exact hlt j' (by omega) z hz

/-! ## The gateway: users -/

theorem putUser_of_findIndex (s : Store) (pid : Option Int) (body : Obj) (i : Nat)
    (old : Obj) (hf : findIndex (idMatches pid) s.users = some i)
    (hold : s.users[i]? = some old) (hw : WellFormed old) :
    putUser pid body s =
      (json (.obj (spread old body)), { s with users := s.users.set i (spread old body) }) := by
  have hi : i < s.users.length := by
    rcases Nat.lt_or_ge i s.users.length with hlt | hge
    · exact hlt
    · rw [List.getElem?_eq_none hge] at hold
      cases hold
  have hget : s.users.getD i [] = old := by
    simp [List.getD, hold]
  have hset : (s.users.set i (spread old body)).getD i [] = spread old body := by
    simp [List.getD, hi]
  simp only [putUser, readUsers, writeUsers, hf, hget, spread_nil old hw, hset]

/-- Claim C1: a PUT /api/users/:id whose parsed id equals the id of no stored user is
answered with status 404 and body `{error: "User not found"}`, and the store (the
user collection with it) is left as it was. -/
theorem putUser_not_found (s : Store) (pid : Option Int) (body : Obj)
    (h : ∀ u ∈ s.users, idMatches pid u = false) :
    (putUser pid body s).1 =
        { status := 404, body := .obj [("error", .str "User not found")] } ∧
      (putUser pid body s).2 = s ∧ (putUser pid body s).2.users = s.users := by
  have hn : findIndex (idMatches pid) (readUsers s) = none :=
    (findIndex_eq_none _ _).2 h
  simp [putUser, hn]

theorem putUser_not_found_witness :
    (putUser (some 999999) [("name", .str "Zed")]
        { users := [[("id", .num 5), ("name", .str "Ann")]], art := [] }).1 =
        { status := 404, body := .obj [("error", .str "User not found")] } ∧
      (putUser (some 999999) [("name", .str "Zed")]
        { users := [[("id", .num 5), ("name", .str "Ann")]], art := [] }).2 =
        { users := [[("id", .num 5), ("name", .str "Ann")]], art := [] } ∧
      (putUser (some 999999) [("name", .str "Zed")]
        { users := [[("id", .num 5), ("name", .str "Ann")]], art := [] }).2.users =
        [[("id", .num 5), ("name", .str "Ann")]] :=
  putUser_not_found { users := [[("id", .num 5), ("name", .str "Ann")]], art := [] }
    (some 999999) [("name", .str "Zed")] (by decide)

/-- Claim C2: when some stored user has the requested id, PUT /api/users/:id answers
200 with the shallow merge of the body over the first such record (a key of the body
has the body's value, any other key the value of the existing record), and the stored
collection is the old one with that one position replaced by the returned record:
same length, every other position unchanged. -/
theorem putUser_found (s : Store) (pid : Option Int) (body : Obj)
    (hs : ∀ u ∈ s.users, WellFormed u) (hb : WellFormed body)
    (h : ∃ u ∈ s.users, idMatches pid u = true) :
    ∃ (i : Nat) (old merged : Obj),
      s.users[i]? = some old ∧ idMatches pid old = true ∧
      (∀ j, j < i → ∀ u, s.users[j]? = some u → idMatches pid u = false) ∧
      (putUser pid body s).1 = { status := 200, body := .obj merged } ∧
      (∀ k, hasKey body k = true → prop merged k = prop body k) ∧
      (∀ k, hasKey body k = false → prop merged k = prop old k) ∧
      (∀ k, hasKey merged k = (hasKey old k || hasKey body k)) ∧
      (putUser pid body s).2.users = s.users.set i merged ∧
      (putUser pid body s).2.users.length = s.users.length ∧
      (putUser pid body s).2.users[i]? = some merged ∧
      (∀ j, j ≠ i → (putUser pid body s).2.users[j]? = s.users[j]?) ∧
      (putUser pid body s).2.art = s.art := by
  cases hf : findIndex (idMatches pid) s.users with
  | none =>
    obtain ⟨u, hu, hm⟩ := h
    have := (findIndex_eq_none _ _).1 hf u hu
    simp [hm] at this
  | some i =>
    obtain ⟨old, hold, hm, hlt⟩ := findIndex_eq_some _ _ _ hf
    have hwold : WellFormed old := hs old (List.getElem?_mem hold)
    have hp := putUser_of_findIndex s pid body i old hf hold hwold
    have hi : i < s.users.length := by
      rcases Nat.lt_or_ge i s.users.length with hlt' | hge
      · exact hlt'
      · rw [List.getElem?_eq_none hge] at hold
        cases hold
    refine ⟨i, old, spread old body, hold, hm, hlt, ?_, ?_, ?_, ?_, ?_, ?_, ?_, ?_, ?_⟩
    · rw [hp]; rfl
    · intro k hk
      rw [prop_spread old body hb, if_pos hk]
    · intro k hk
      rw [prop_spread old body hb]
      simp [hk]
    · intro k
      exact hasKey_spread old body k
    · rw [hp]
    · rw [hp]; simp
    · rw [hp]; simp [hi]
    · intro j hj
      rw [hp]
      simp [List.getElem?_set, Ne.symm hj]
    · rw [hp]

theorem putUser_found_witness :
    ∃ (i : Nat) (old merged : Obj),
      sampleStore.users[i]? = some old ∧ idMatches (some 5) old = true ∧
      (∀ j, j < i → ∀ u, sampleStore.users[j]? = some u → idMatches (some 5) u = false) ∧
      (putUser (some 5) sampleBody sampleStore).1 = { status := 200, body := .obj merged } ∧
      (∀ k, hasKey sampleBody k = true → prop merged k = prop sampleBody k) ∧
      (∀ k, hasKey sampleBody k = false → prop merged k = prop old k) ∧
      (∀ k, hasKey merged k = (hasKey old k || hasKey sampleBody k)) ∧
      (putUser (some 5) sampleBody sampleStore).2.users = sampleStore.users.set i merged ∧
      (putUser (some 5) sampleBody sampleStore).2.users.length = sampleStore.users.length ∧
      (putUser (some 5) sampleBody sampleStore).2.users[i]? = some merged ∧
      (∀ j, j ≠ i → (putUser (some 5) sampleBody sampleStore).2.users[j]? =
        sampleStore.users[j]?) ∧
      (putUser (some 5) sampleBody sampleStore).2.art = sampleStore.art :=
  putUser_found sampleStore (some 5) sampleBody (by decide) (by decide) (by decide)

/-- Claim C4: the record returned by an insert into either collection has an `id`
field whose value is the server clock reading; an `id` supplied in the body is
replaced by it. -/
theorem insert_assigns_id (s : Store) (now : Int) (body : Obj) :
    (∃ newUser, (postUser now body s).1 = { status := 200, body := .obj newUser } ∧
        hasKey newUser "id" = true ∧ prop newUser "id" = .num now) ∧
      (∃ newArt, (postArt now body s).1 = { status := 200, body := .obj newArt } ∧
        hasKey newArt "id" = true ∧ prop newArt "id" = .num now) := by
  refine ⟨⟨_, rfl, ?_, ?_⟩, ⟨_, rfl, ?_, ?_⟩⟩
  · simp [hasKey_assign]
  · simp [prop_assign]
  · simp [hasKey_assign]
  · simp [prop_assign]

/-! ## The gateway: artworks -/

/-- Claim C3, as stated, fails: the body `{id: 5, title: "Dawn"}` inserted at clock
reading 7 is listed first, but its submitted field `id` does not keep the submitted
value. -/
theorem postArt_roundtrip_id_counterexample :
    ∃ newArt rest,
      (getArt (postArt 7 [("id", .num 5), ("title", .str "Dawn")] initializeFiles).2).1.body =
        .arr (.obj newArt :: rest) ∧
      ¬ (∀ k, hasKey [("id", .num 5), ("title", .str "Dawn")] k = true →
          prop newArt k = prop [("id", .num 5), ("title", .str "Dawn")] k) :=
  ⟨_, _, rfl, fun h => absurd (h "id" (by decide)) (by decide)⟩

/-- Claim C3, amended: inserting an artwork and then listing the artworks yields the
new record first, followed by the previous collection in its order; the new record
has every field of the body, each field other than `id` with the submitted value,
and `id` with the server clock reading. -/
theorem postArt_roundtrip (s : Store) (now : Int) (body : Obj) (hb : WellFormed body) :
    ∃ newArt,
      (postArt now body s).1 = { status := 200, body := .obj newArt } ∧
      (getArt (postArt now body s).2).1 =
        { status := 200, body := .arr (.obj newArt :: s.art.map .obj) } ∧
      (postArt now body s).2.art = newArt :: s.art ∧
      (∀ k, hasKey body k = true → hasKey newArt k = true) ∧
      (∀ k, k ≠ "id" → prop newArt k = prop body k) ∧
      prop newArt "id" = .num now := by
  refine ⟨assign body "id" (.num now), ?_, ?_, ?_, ?_, ?_, ?_⟩
  · simp [postArt, spread_nil body hb, json]
  · simp [getArt, postArt, readArt, writeArt, spread_nil body hb, json]
  · simp [postArt, readArt, writeArt, spread_nil body hb]
  · intro k hk
    simp [hasKey_assign, hk]
  · intro k hk
    simp [prop_assign, Ne.symm hk]
  · simp [prop_assign]

theorem postArt_roundtrip_witness :
    ∃ newArt,
      (postArt 7 sampleBody initializeFiles).1 = { status := 200, body := .obj newArt } ∧
      (getArt (postArt 7 sampleBody initializeFiles).2).1 =
        { status := 200, body := .arr (.obj newArt :: initializeFiles.art.map .obj) } ∧
      (postArt 7 sampleBody initializeFiles).2.art = newArt :: initializeFiles.art ∧
      (∀ k, hasKey sampleBody k = true → hasKey newArt k = true) ∧
      (∀ k, k ≠ "id" → prop newArt k = prop sampleBody k) ∧
      prop newArt "id" = .num 7 :=
  postArt_roundtrip initializeFiles 7 sampleBody (by decide)

/-- Claim C5: deleting the same id twice answers `{success: true}` both times, and
the store after the second delete is the store after the first. -/
theorem deleteArt_twice (s : Store) (pid : Option Int) :
    (deleteArt pid s).1 = { status := 200, body := .obj [("success", .bool true)] } ∧
      (deleteArt pid (deleteArt pid s).2).1 =
        { status := 200, body := .obj [("success", .bool true)] } ∧
      (deleteArt pid (deleteArt pid s).2).2 = (deleteArt pid s).2 := by
  refine ⟨rfl, rfl, ?_⟩
  simp [deleteArt, readArt, writeArt, List.filter_filter]

/-- Claim C6: a DELETE /api/art/:id whose id matches no stored artwork answers
`{success: true}` and leaves the store, the artwork collection with it, as it was. -/
theorem deleteArt_absent (s : Store) (pid : Option Int)
    (h : ∀ a ∈ s.art, idMatches pid a = false) :
    (deleteArt pid s).1 = { status := 200, body := .obj [("success", .bool true)] } ∧
      (deleteArt pid s).2.art = s.art ∧ (deleteArt pid s).2 = s := by
  have hf : s.art.filter (fun a => !idMatches pid a) = s.art := by
    rw [List.filter_eq_self]
    intro a ha
    simp [h a ha]
  refine ⟨rfl, ?_, ?_⟩
  · simp [deleteArt, readArt, writeArt, hf]
  · simp [deleteArt, readArt, writeArt, hf]

theorem deleteArt_absent_witness :
    (deleteArt (some 42) initializeFiles).1 =
        { status := 200, body := .obj [("success", .bool true)] } ∧
      (deleteArt (some 42) initializeFiles).2.art = initializeFiles.art ∧
      (deleteArt (some 42) initializeFiles).2 = initializeFiles :=
  deleteArt_absent initializeFiles (some 42) (by decide)

/-- Claim C7: after DELETE /api/art/:id no stored artwork has that id, and the stored
collection is the original one with exactly the matching records left out: it is a
subsequence of the original (relative order kept) in which every record with another
id occurs as often as before. The user collection is untouched. -/
theorem deleteArt_removes_all (s : Store) (pid : Option Int) :
    (∀ a ∈ (deleteArt pid s).2.art, idMatches pid a = false) ∧
      List.Sublist (deleteArt pid s).2.art s.art ∧
      (∀ a, idMatches pid a = false →
        (deleteArt pid s).2.art.count a = s.art.count a) ∧
      (∀ a, a ∈ (deleteArt pid s).2.art ↔ a ∈ s.art ∧ idMatches pid a = false) ∧
      (deleteArt pid s).2.users = s.users := by
  refine ⟨?_, ?_, ?_, ?_, rfl⟩
  · intro a ha
    simp [deleteArt, readArt, writeArt, List.mem_filter] at ha
    exact ha.2
  · simp [deleteArt, readArt, writeArt]
  · intro a ha
    simp only [deleteArt, readArt, writeArt]
    rw [List.count_filter]
    simp [ha]
  · intro a
    simp [deleteArt, readArt, writeArt, List.mem_filter]

/-- Claim C8: POST /api/users returns the body's fields with their submitted values
plus the assigned id, and nothing else: a name is a field of the record exactly when
it is a field of the body or is `id`, the `id` is the clock reading, and every other
field has the body's value. The stored collection is the previous one followed by
the returned record. -/
theorem postUser_appends (s : Store) (now : Int) (body : Obj) (hb : WellFormed body) :
    ∃ newUser,
      (postUser now body s).1 = { status := 200, body := .obj newUser } ∧
      (∀ k, hasKey newUser k = (hasKey body k || decide (k = "id"))) ∧
      prop newUser "id" = .num now ∧
      (∀ k, k ≠ "id" → prop newUser k = prop body k) ∧
      (postUser now body s).2.users = s.users ++ [newUser] ∧
      (postUser now body s).2.art = s.art := by
  refine ⟨assign body "id" (.num now), ?_, ?_, ?_, ?_, ?_, ?_⟩
  · simp [postUser, spread_nil body hb, json]
  · intro k
    simp [hasKey_assign, eq_comm]
  · simp [prop_assign]
  · intro k hk
    simp [prop_assign, Ne.symm hk]
  · simp [postUser, readUsers, writeUsers, spread_nil body hb]
  · simp [postUser, readUsers, writeUsers]

theorem postUser_appends_witness :
    ∃ newUser,
      (postUser 1700000000000 scenarioA sampleStore).1 =
        { status := 200, body := .obj newUser } ∧
      (∀ k, hasKey newUser k = (hasKey scenarioA k || decide (k = "id"))) ∧
      prop newUser "id" = .num 1700000000000 ∧
      (∀ k, k ≠ "id" → prop newUser k = prop scenarioA k) ∧
      (postUser 1700000000000 scenarioA sampleStore).2.users =
        sampleStore.users ++ [newUser] ∧
      (postUser 1700000000000 scenarioA sampleStore).2.art = sampleStore.art :=
  postUser_appends sampleStore 1700000000000 scenarioA (by decide)

/-! ## The client -/

theorem handleUpdateUser_artworks (updatedUser : Obj) (result : Option Obj) (c : Client) :
    (handleUpdateUser updatedUser result c).1.artworks = c.artworks := by
  unfold handleUpdateUser
  cases result with
  | none => rfl
  | some r =>
    cases hu : c.users with
    | list users => simp [hu, notify]
    | promise => simp [hu]

theorem handleUpdateUser_effects (updatedUser : Obj) (result : Option Obj) (c : Client) :
    ∀ e ∈ (handleUpdateUser updatedUser result c).2,
      e = .usersUpdate updatedUser ∨ ∃ msg, e = .typeError msg := by
  unfold handleUpdateUser
  cases result with
  | none => simp
  | some r =>
    cases hu : c.users with
    | list users => simp [hu]
    | promise => simp [hu]

/-- What `handleBuy` does for a signed-in user. When the role is not `buyer` it only
raises the alert: the state is unchanged and no update is issued. For a buyer whose
`orders` is the array `orders`, the calls made are one update (and nothing but errors
of the answer's processing), for the user record whose `orders` is the new order,
carrying the artwork's title, price and img, followed by `orders`, every other field
being as in the user. In all cases the client's artworks are unchanged, no call
concerns the artwork collection, and the update route leaves the stored artworks as
they are. -/
theorem handleBuy_spec (c : Client) (user art : Obj) (now : Int) (date : String)
    (result : Option Obj) (hu : c.user = some user) (hw : WellFormed user) :
    (prop user "role" ≠ .str "buyer" →
        handleBuy art now date result c =
          (c, [.alert "Please create a Buyer account to purchase."])) ∧
      (prop user "role" = .str "buyer" → ∀ orders, prop user "orders" = .arr orders →
        ∃ updatedUser newOrder,
          (handleBuy art now date result c).2.head? = some (.usersUpdate updatedUser) ∧
          (∀ e ∈ (handleBuy art now date result c).2,
            e = .usersUpdate updatedUser ∨ ∃ msg, e = .typeError msg) ∧
          prop updatedUser "orders" = .arr (.obj newOrder :: orders) ∧
          prop newOrder "title" = prop art "title" ∧
          prop newOrder "price" = prop art "price" ∧
          prop newOrder "img" = prop art "img" ∧
          (∀ k, k ≠ "orders" → prop updatedUser k = prop user k) ∧
          (∀ k, hasKey updatedUser k = hasKey user k)) ∧
      (handleBuy art now date result c).1.artworks = c.artworks ∧
      (∀ e ∈ (handleBuy art now date result c).2, ∀ newArt, e ≠ .artAdd newArt) ∧
      (∀ pid body s, (putUser pid body s).2.art = s.art) := by
  refine ⟨?_, ?_, ?_, ?_, ?_⟩
  · intro hr
    simp [handleBuy, hu, hr]
  · intro hr orders ho
    have hk : hasKey user "orders" = true := by
      by_contra hn
      have hu' : prop user "orders" = .undefined := by
        have : ∀ o : Obj, hasKey o "orders" ≠ true → prop o "orders" = .undefined := by
          intro o
          induction o with
          | nil => simp [prop]
          | cons p rest ih =>
            obtain ⟨a, w⟩ := p
            by_cases ha : a = "orders" <;> simp [hasKey, prop, ha]
            exact fun h => ih (by simpa using h)
        exact this user hn
      rw [hu'] at ho
      cases ho
    refine ⟨assign user "orders" (.arr (.obj
        [("id", .num now), ("title", prop art "title"), ("price", prop art "price"),
         ("date", .str date), ("img", prop art "img")] :: orders)),
      [("id", .num now), ("title", prop art "title"), ("price", prop art "price"),
       ("date", .str date), ("img", prop art "img")], ?_, ?_, ?_, ?_, ?_, ?_, ?_, ?_⟩
    · simp only [handleBuy, hu, hr, ho, iterate, spread_nil user hw]
      unfold handleUpdateUser
      cases result with
      | none => simp
      | some r =>
        cases hus : c.users with
        | list users => simp [notify, hus]
        | promise => simp [notify, hus]
    · simp only [handleBuy, hu, hr, ho, iterate, spread_nil user hw]
      simpa using handleUpdateUser_effects _ result _
    · simp [prop_assign]
    · simp [prop]
    · simp [prop]
    · simp [prop]
    · intro k hk'
      simp [prop_assign, Ne.symm hk']
    · intro k
      rw [hasKey_assign]
      by_cases hko : "orders" = k
      · subst hko
        simp [hk]
      · simp [hko]
  · simp only [handleBuy, hu]
    split
    · rfl
    · split
      · rfl
      · rw [handleUpdateUser_artworks]
        rfl
  · intro e he newArt
    simp only [handleBuy, hu] at he
    split at he
    · simp at he
      simp [he]
    · split at he
      · simp at he
        simp [he]
      · rcases handleUpdateUser_effects _ _ _ e he with h | ⟨msg, h⟩ <;> simp [h]
  · intro pid body s
    simp only [putUser, readUsers, writeUsers]
    split <;> rfl

theorem handleBuy_spec_witness :
    handleBuy seedArt 99 "3/4/2024" none (sampleClient sampleArtist) =
        (sampleClient sampleArtist, [.alert "Please create a Buyer account to purchase."]) ∧
      ∃ updatedUser newOrder,
        (handleBuy seedArt 99 "3/4/2024" none (sampleClient sampleBuyer)).2.head? =
          some (.usersUpdate updatedUser) ∧
        (∀ e ∈ (handleBuy seedArt 99 "3/4/2024" none (sampleClient sampleBuyer)).2,
          e = .usersUpdate updatedUser ∨ ∃ msg, e = .typeError msg) ∧
        prop updatedUser "orders" =
          .arr (.obj newOrder :: [.obj [("id", .num 11), ("title", .str "Abstract Blue"),
            ("price", .num 1200), ("date", .str "1/2/2024"), ("img", .str "blue.png")]]) ∧
        prop newOrder "title" = prop seedArt "title" ∧
        prop newOrder "price" = prop seedArt "price" ∧
        prop newOrder "img" = prop seedArt "img" ∧
        (∀ k, k ≠ "orders" → prop updatedUser k = prop sampleBuyer k) ∧
        (∀ k, hasKey updatedUser k = hasKey sampleBuyer k) :=
  ⟨(handleBuy_spec (sampleClient sampleArtist) sampleArtist seedArt 99 "3/4/2024" none rfl
      (by decide)).1 (by decide),
    (handleBuy_spec (sampleClient sampleBuyer) sampleBuyer seedArt 99 "3/4/2024" none rfl
      (by decide)).2.1 (by decide) _ rfl⟩

/-- Claim C9, at a buyer stored without `orders`: the user created by POST /api/users
with the body of scenario A has the role `buyer` and no `orders` field. After loading
the users and signing in as that user, `handleBuy` fails on `...user.orders`: the only
call is the uncaught error, no order is created and no update is issued, where the
claim has an update carrying the new order. -/
theorem handleBuy_without_orders :
    scenarioAStore.users = [scenarioA ++ [("id", .num 1700000000000)]] ∧
      scenarioAClient.user = some (scenarioA ++ [("id", .num 1700000000000)]) ∧
      prop (scenarioA ++ [("id", .num 1700000000000)]) "role" = .str "buyer" ∧
      prop (scenarioA ++ [("id", .num 1700000000000)]) "orders" = .undefined ∧
      handleBuy seedArt 1700000009999 "3/4/2024" none scenarioAClient =
        (scenarioAClient, [.typeError "user.orders is not iterable"]) ∧
      requestOf (handleBuy seedArt 1700000009999 "3/4/2024" none scenarioAClient).2 = none := by
  decide

theorem find_isSome_iff (p : Obj → Bool) (l : List Obj) :
    (l.find? p).isSome = true ↔ ∃ u ∈ l, p u = true := by
  induction l with
  | nil => simp
  | cons x xs ih =>
    by_cases h : p x = true
    · simp [List.find?, h]
    · simp [List.find?, h, ih]

theorem wellFormed_formData (f : FormData) : WellFormed f.toObj := by
  simp [WellFormed, FormData.toObj]

/-- Claim C10: a signup submission against the loaded list `users`. When some loaded
user has exactly the submitted email, the only call is the alert: the state (the
user list, the signed-in user, the session) is unchanged and no request is issued.
Otherwise exactly one insert request is issued, for the user built from the form
with the fields of the form, `orders` the empty array and role `buyer` when the
form's role is the initial one; that user is signed in and written to the session,
and the gateway stores it with these fields. -/
theorem signup_spec (c : Client) (users : List Obj) (f : FormData) (now : Int)
    (hl : c.users = .list users) :
    ((∃ u ∈ users, prop u "email" = .str f.email) →
        handleSubmit true f now c = (c, [.alert "Email taken!"])) ∧
      ((∀ u ∈ users, prop u "email" ≠ .str f.email) →
        ∃ newUser,
          (handleSubmit true f now c).2 = [.usersAdd newUser] ∧
          (handleSubmit true f now c).1.user = some newUser ∧
          (handleSubmit true f now c).1.session = some newUser ∧
          prop newUser "orders" = .arr [] ∧
          prop newUser "id" = .num now ∧
          (∀ k, k ≠ "id" → k ≠ "orders" → prop newUser k = prop f.toObj k) ∧
          prop newUser "email" = .str f.email ∧
          prop newUser "role" = .str f.role ∧
          (f.role = FormData.initial.role → prop newUser "role" = .str "buyer") ∧
          (∀ (s : Store) (serverNow : Int), ∃ stored,
            (postUser serverNow newUser s).2.users = s.users ++ [stored] ∧
            prop stored "orders" = .arr [] ∧ prop stored "email" = .str f.email ∧
            prop stored "role" = .str f.role)) := by
  refine ⟨?_, ?_⟩
  · intro h
    have hf : (users.find? fun u => strictEq (prop u "email") (.str f.email)).isSome = true := by
      rw [find_isSome_iff]
      obtain ⟨u, hu, he⟩ := h
      exact ⟨u, hu, (strictEq_str _ _).2 he⟩
    simp [handleSubmit, hl, hf]
  · intro h
    have hf : (users.find? fun u => strictEq (prop u "email") (.str f.email)).isSome = false := by
      rw [Bool.eq_false_iff]
      intro hc
      rw [find_isSome_iff] at hc
      obtain ⟨u, hu, he⟩ := hc
      exact h u hu ((strictEq_str _ _).1 he)
    have hs : spread [] f.toObj = f.toObj := spread_nil _ (wellFormed_formData f)
    have hw : WellFormed (assign (assign f.toObj "id" (.num now)) "orders" (.arr [])) := by
      simp [WellFormed, FormData.toObj, assign]
    refine ⟨assign (assign f.toObj "id" (.num now)) "orders" (.arr []),
      ?_, ?_, ?_, ?_, ?_, ?_, ?_, ?_, ?_, ?_⟩
    · simp [handleSubmit, hl, hf, hs]
    · simp [handleSubmit, hl, hf, hs, handleLogin, notify]
    · simp [handleSubmit, hl, hf, hs, handleLogin, notify]
    · simp [prop_assign]
    · simp [prop_assign]
    · intro k hk hk'
      simp [prop_assign, Ne.symm hk, Ne.symm hk']
    · simp [prop_assign, FormData.toObj, prop]
    · simp [prop_assign, FormData.toObj, prop]
    · intro hr
      have : f.role = "buyer" := hr
      simp [prop_assign, FormData.toObj, prop, this]
    · intro s serverNow
      refine ⟨assign (assign (assign f.toObj "id" (.num now)) "orders" (.arr [])) "id"
        (.num serverNow), ?_, ?_, ?_, ?_⟩
      · simp [postUser, readUsers, writeUsers, spread_nil _ hw]
      · simp [prop_assign]
      · simp [prop_assign, FormData.toObj, prop]
      · simp [prop_assign, FormData.toObj, prop]

theorem signup_spec_witness :
    handleSubmit true (sampleForm "a@x.com") 1700000000000 sampleGuest =
        (sampleGuest, [.alert "Email taken!"]) ∧
      ∃ newUser,
        (handleSubmit true (sampleForm "d@x.com") 1700000000000 sampleGuest).2 =
          [.usersAdd newUser] ∧
        (handleSubmit true (sampleForm "d@x.com") 1700000000000 sampleGuest).1.user =
          some newUser ∧
        (handleSubmit true (sampleForm "d@x.com") 1700000000000 sampleGuest).1.session =
          some newUser ∧
        prop newUser "orders" = .arr [] ∧
        prop newUser "id" = .num 1700000000000 ∧
        (∀ k, k ≠ "id" → k ≠ "orders" →
          prop newUser k = prop (sampleForm "d@x.com").toObj k) ∧
        prop newUser "email" = .str (sampleForm "d@x.com").email ∧
        prop newUser "role" = .str (sampleForm "d@x.com").role ∧
        ((sampleForm "d@x.com").role = FormData.initial.role →
          prop newUser "role" = .str "buyer") ∧
        (∀ (s : Store) (serverNow : Int), ∃ stored,
          (postUser serverNow newUser s).2.users = s.users ++ [stored] ∧
          prop stored "orders" = .arr [] ∧
          prop stored "email" = .str (sampleForm "d@x.com").email ∧
          prop stored "role" = .str (sampleForm "d@x.com").role) :=
  ⟨(signup_spec sampleGuest [sampleArtist, sampleBuyer] (sampleForm "a@x.com")
      1700000000000 rfl).1 (by decide),
    (signup_spec sampleGuest [sampleArtist, sampleBuyer] (sampleForm "d@x.com")
      1700000000000 rfl).2 (by decide)⟩

theorem find_eq_some_split (p : Obj → Bool) (l : List Obj) (x : Obj)
    (h : l.find? p = some x) :
    ∃ before after, l = before ++ x :: after ∧ p x = true ∧ ∀ u ∈ before, p u = false := by
  induction l with
  | nil => simp at h
  | cons y ys ih =>
    by_cases hy : p y = true
    · simp [List.find?, hy] at h
      subst h
      exact ⟨[], ys, rfl, hy, by simp⟩
    · simp [List.find?, hy] at h
      obtain ⟨before, after, hl, hx, hb⟩ := ih h
      refine ⟨y :: before, after, by simp [hl], hx, ?_⟩
      intro u hu
      rcases List.mem_cons.1 hu with rfl | hu'
      · simpa using hy
      · exact hb u hu'

theorem find_eq_none_iff (p : Obj → Bool) (l : List Obj) :
    l.find? p = none ↔ ∀ u ∈ l, p u = false := by
  induction l with
  | nil => simp
  | cons y ys ih =>
    by_cases hy : p y = true
    · simp [List.find?, hy]
    · simp [List.find?, hy, ih]

theorem credentials_iff (f : FormData) (u : Obj) :
    (strictEq (prop u "email") (.str f.email) &&
        strictEq (prop u "password") (.str f.password)) = true ↔
      prop u "email" = .str f.email ∧ prop u "password" = .str f.password := by
  rw [Bool.and_eq_true, strictEq_str, strictEq_str]

/-- Claim C11: a login submission against the loaded list `users` succeeds, that is
signs a user in without any alert, exactly when some user of the list has the
submitted email and the submitted password. In that case the user signed in (and
written to the session) is the first such user of the list; otherwise the only call
is the alert "Invalid credentials" and the state is unchanged, so nobody is signed
in. -/
theorem login_spec (c : Client) (users : List Obj) (f : FormData) (now : Int)
    (hl : c.users = .list users) :
    ((∃ found, handleSubmit false f now c = (handleLogin found c, [])) ↔
        ∃ u ∈ users, prop u "email" = .str f.email ∧ prop u "password" = .str f.password) ∧
      ((∃ u ∈ users, prop u "email" = .str f.email ∧ prop u "password" = .str f.password) →
        ∃ before found after,
          users = before ++ found :: after ∧
          (prop found "email" = .str f.email ∧ prop found "password" = .str f.password) ∧
          (∀ u ∈ before,
            ¬ (prop u "email" = .str f.email ∧ prop u "password" = .str f.password)) ∧
          handleSubmit false f now c = (handleLogin found c, []) ∧
          (handleSubmit false f now c).1.user = some found ∧
          (handleSubmit false f now c).1.session = some found) ∧
      ((¬ ∃ u ∈ users, prop u "email" = .str f.email ∧ prop u "password" = .str f.password) →
        handleSubmit false f now c = (c, [.alert "Invalid credentials"]) ∧
        (handleSubmit false f now c).1.user = c.user ∧
        (handleSubmit false f now c).1.session = c.session) := by
  have hsome : ∀ found,
      (users.find? fun u => strictEq (prop u "email") (.str f.email) &&
          strictEq (prop u "password") (.str f.password)) = some found →
      handleSubmit false f now c = (handleLogin found c, []) := by
    intro found hf
    simp [handleSubmit, hl, hf]
  have hnone :
      (users.find? fun u => strictEq (prop u "email") (.str f.email) &&
          strictEq (prop u "password") (.str f.password)) = none →
      handleSubmit false f now c = (c, [.alert "Invalid credentials"]) := by
    intro hf
    simp [handleSubmit, hl, hf]
  have hyes : (∃ u ∈ users,
      prop u "email" = .str f.email ∧ prop u "password" = .str f.password) →
      ∃ found, (users.find? fun u => strictEq (prop u "email") (.str f.email) &&
          strictEq (prop u "password") (.str f.password)) = some found := by
    intro ⟨u, hu, hm⟩
    cases hf : (users.find? fun u => strictEq (prop u "email") (.str f.email) &&
          strictEq (prop u "password") (.str f.password)) with
    | some found => exact ⟨found, rfl⟩
    | none =>
      have := (find_eq_none_iff _ _).1 hf u hu
      rw [(credentials_iff f u).2 hm] at this
      cases this
  refine ⟨⟨?_, ?_⟩, ?_, ?_⟩
  · intro ⟨found, hs⟩
    by_contra hno
    have hf : (users.find? fun u => strictEq (prop u "email") (.str f.email) &&
          strictEq (prop u "password") (.str f.password)) = none := by
      rw [find_eq_none_iff]
      intro u hu
      rw [Bool.eq_false_iff]
      intro hm
      exact hno ⟨u, hu, (credentials_iff f u).1 hm⟩
    rw [hnone hf] at hs
    simp at hs
  · intro h
    obtain ⟨found, hf⟩ := hyes h
    exact ⟨found, hsome found hf⟩
  · intro h
    obtain ⟨found, hf⟩ := hyes h
    obtain ⟨before, after, hsplit, hm, hb⟩ := find_eq_some_split _ _ _ hf
    refine ⟨before, found, after, hsplit, (credentials_iff f found).1 hm, ?_, hsome found hf,
      ?_, ?_⟩
    · intro u hu hmu
      have := hb u hu
      rw [(credentials_iff f u).2 hmu] at this
      cases this
    · rw [hsome found hf]; rfl
    · rw [hsome found hf]; rfl
  · intro hno
    have hf : (users.find? fun u => strictEq (prop u "email") (.str f.email) &&
          strictEq (prop u "password") (.str f.password)) = none := by
      rw [find_eq_none_iff]
      intro u hu
      rw [Bool.eq_false_iff]
      intro hm
      exact hno ⟨u, hu, (credentials_iff f u).1 hm⟩
    rw [hnone hf]
    exact ⟨rfl, rfl, rfl⟩

theorem login_spec_witness :
    (∃ before found after,
        [sampleArtist, sampleBuyer] = before ++ found :: after ∧
        (prop found "email" = .str (loginForm "a@x.com" "p").email ∧
          prop found "password" = .str (loginForm "a@x.com" "p").password) ∧
        (∀ u ∈ before,
          ¬ (prop u "email" = .str (loginForm "a@x.com" "p").email ∧
            prop u "password" = .str (loginForm "a@x.com" "p").password)) ∧
        handleSubmit false (loginForm "a@x.com" "p") 0 sampleGuest =
          (handleLogin found sampleGuest, []) ∧
        (handleSubmit false (loginForm "a@x.com" "p") 0 sampleGuest).1.user = some found ∧
        (handleSubmit false (loginForm "a@x.com" "p") 0 sampleGuest).1.session =
          some found) ∧
      (handleSubmit false (loginForm "a@x.com" "wrong") 0 sampleGuest =
          (sampleGuest, [.alert "Invalid credentials"]) ∧
        (handleSubmit false (loginForm "a@x.com" "wrong") 0 sampleGuest).1.user =
          sampleGuest.user ∧
        (handleSubmit false (loginForm "a@x.com" "wrong") 0 sampleGuest).1.session =
          sampleGuest.session) :=
  ⟨(login_spec sampleGuest [sampleArtist, sampleBuyer] (loginForm "a@x.com" "p") 0 rfl).2.1
      (by decide),
    (login_spec sampleGuest [sampleArtist, sampleBuyer] (loginForm "a@x.com" "wrong") 0
      rfl).2.2 (by decide)⟩

/-! ## Identifiers under update -/

theorem putUser_of_findIndex_none (s : Store) (pid : Option Int) (body : Obj)
    (h : findIndex (idMatches pid) s.users = none) :
    putUser pid body s =
      ({ status := 404, body := .obj [("error", .str "User not found")] }, s) := by
  simp [putUser, readUsers, h]

theorem idMatches_false_of_id_ne (i : Int) (u : Obj) (h : prop u "id" ≠ .num i) :
    idMatches (some i) u = false := by
  unfold idMatches
  split
  · rename_i n m hn hm
    cases hm
    rw [Bool.eq_false_iff]
    intro hc
    have : n = i := by simpa using hc
    exact h (by rw [hn, this])
  · rfl

/-- Claim C13, as stated, fails: in a store where two users have the id 5, after
PUT /api/users/5 with the body `{id: 9}` (9 is neither 5 nor the id of any stored
user) a second PUT /api/users/5 finds the other user and answers 200, not 404. -/
theorem putUser_second_put_counterexample :
    (∃ u ∈ sampleStore.users, idMatches (some 5) u = true) ∧
      prop [("id", Json.num 9)] "id" ≠ .num 5 ∧
      (∀ u ∈ sampleStore.users, prop u "id" ≠ prop [("id", Json.num 9)] "id") ∧
      (putUser (some 5) [] (putUser (some 5) [("id", .num 9)] sampleStore).2).1.status = 200 ∧
      (putUser (some 5) [] (putUser (some 5) [("id", .num 9)] sampleStore).2).1.status ≠ 404 := by
  decide

/-- Claim C13, amended: for a stored user with id `i` and a body with an `id` field,
PUT /api/users/i returns and stores, at the position of the first user with id `i`, a
record whose `id` is the body's; an insert always returns the clock reading as `id`,
whatever the body holds; and when the body's `id` is not `i` and no other stored
user has id `i`, a second PUT /api/users/i is answered 404 and changes nothing. -/
theorem putUser_overwrites_id (s : Store) (i : Int) (body : Obj)
    (hs : ∀ u ∈ s.users, WellFormed u) (hb : WellFormed body)
    (hid : hasKey body "id" = true) (h : ∃ u ∈ s.users, idMatches (some i) u = true) :
    ∃ (idx : Nat) (old merged : Obj),
      s.users[idx]? = some old ∧ idMatches (some i) old = true ∧
      (∀ k, k < idx → ∀ u, s.users[k]? = some u → idMatches (some i) u = false) ∧
      (putUser (some i) body s).1 = { status := 200, body := .obj merged } ∧
      prop merged "id" = prop body "id" ∧
      (putUser (some i) body s).2.users[idx]? = some merged ∧
      (∀ (now : Int) (b : Obj) (t : Store), ∃ newUser,
        (postUser now b t).1 = { status := 200, body := .obj newUser } ∧
        prop newUser "id" = .num now) ∧
      (prop body "id" ≠ .num i →
        (∀ k, k ≠ idx → ∀ u, s.users[k]? = some u → idMatches (some i) u = false) →
        ∀ body2, putUser (some i) body2 (putUser (some i) body s).2 =
          ({ status := 404, body := .obj [("error", .str "User not found")] },
            (putUser (some i) body s).2)) := by
  cases hf : findIndex (idMatches (some i)) s.users with
  | none =>
    obtain ⟨u, hu, hm⟩ := h
    have := (findIndex_eq_none _ _).1 hf u hu
    simp [hm] at this
  | some idx =>
    obtain ⟨old, hold, hm, hlt⟩ := findIndex_eq_some _ _ _ hf
    have hwold : WellFormed old := hs old (List.getElem?_mem hold)
    have hp := putUser_of_findIndex s (some i) body idx old hf hold hwold
    have hi : idx < s.users.length := by
      rcases Nat.lt_or_ge idx s.users.length with hlt' | hge
      · exact hlt'
      · rw [List.getElem?_eq_none hge] at hold
        cases hold
    have hmid : prop (spread old body) "id" = prop body "id" := by
      rw [prop_spread old body hb, if_pos hid]
    refine ⟨idx, old, spread old body, hold, hm, hlt, ?_, hmid, ?_, ?_, ?_⟩
    · rw [hp]; rfl
    · rw [hp]; simp [hi]
    · intro now b t
      exact ⟨_, rfl, by simp [prop_assign]⟩
    · intro hne hothers body2
      apply putUser_of_findIndex_none
      rw [findIndex_eq_none]
      intro u hu
      rw [hp] at hu
      obtain ⟨k, hk⟩ := List.mem_iff_getElem?.1 hu
      simp only [List.getElem?_set] at hk
      by_cases hkidx : idx = k
      · subst hkidx
        simp [hi] at hk
        subst hk
        exact idMatches_false_of_id_ne i _ (by rw [hmid]; exact hne)
      · simp [hkidx] at hk
        exact hothers k (Ne.symm hkidx) u hk

theorem putUser_overwrites_id_witness :
    (∃ merged,
        (putUser (some 3) bodyWithId sampleStore).1 = { status := 200, body := .obj merged } ∧
        prop merged "id" = .num 9) ∧
      putUser (some 3) sampleBody (putUser (some 3) bodyWithId sampleStore).2 =
        ({ status := 404, body := .obj [("error", .str "User not found")] },
          (putUser (some 3) bodyWithId sampleStore).2) := by
  obtain ⟨idx, old, merged, hold, hm, _, hres, hid, _, _, hsecond⟩ :=
    putUser_overwrites_id sampleStore 3 bodyWithId (by decide) (by decide) (by decide)
      (by decide)
  have key : ∀ (k : Nat) (u : Obj), sampleStore.users[k]? = some u →
      idMatches (some 3) u = true → k = 0 := by
    intro k u hu hmu
    match k with
    | 0 => rfl
    | 1 =>
      simp [sampleStore] at hu
      subst hu
      revert hmu
      decide
    | 2 =>
      simp [sampleStore] at hu
      subst hu
      revert hmu
      decide
    | k + 3 => simp [sampleStore] at hu
  refine ⟨⟨merged, hres, by rw [hid]; decide⟩, hsecond (by decide) ?_ sampleBody⟩
  intro k hk u hu
  rw [Bool.eq_false_iff]
  intro hmu
  exact hk ((key k u hu hmu).trans (key idx old hold hm).symm)

/-! ## The identity after signup -/

theorem fetchPutUser_not_found (online : Bool) (updatedUser : Obj) (s : Store) (tc : Int)
    (hid : prop updatedUser "id" = .num tc)
    (hno : ∀ u ∈ s.users, idMatches (some tc) u = false) :
    fetchPutUser online updatedUser s =
      (if online then
          some { status := 404, body := .obj [("error", .str "User not found")] }
        else none, s) := by
  have hn : findIndex (idMatches (some tc)) s.users = none := (findIndex_eq_none _ _).2 hno
  cases online with
  | false => simp [fetchPutUser]
  | true => simp [fetchPutUser, hid, routeId, putUser_of_findIndex_none s (some tc) _ hn]

theorem resultOf_not_found (online : Bool) :
    resultOf (if online then
        some { status := 404, body := .obj [("error", .str "User not found")] }
      else none) = none := by
  cases online <;> simp [resultOf, Response.ok]

theorem handleUpdateUser_none_user (updatedUser : Obj) (c : Client) :
    (handleUpdateUser updatedUser none c).1.user = c.user ∧
      (handleUpdateUser updatedUser none c).1.session = c.session := by
  simp [handleUpdateUser, notify]

theorem handleBuy_none_user (art : Obj) (now : Int) (date : String) (c : Client) :
    (handleBuy art now date none c).1.user = c.user := by
  unfold handleBuy
  split
  · rfl
  · split
    · rfl
    · split
      · rfl
      · rw [(handleUpdateUser_none_user _ _).1]
        rfl

theorem requestOf_handleBuy (art : Obj) (now : Int) (date : String) (c : Client)
    (user updatedUser : Obj) (hu : c.user = some user) (hw : WellFormed user)
    (h : requestOf (handleBuy art now date none c).2 = some updatedUser) :
    prop updatedUser "id" = prop user "id" := by
  simp only [handleBuy, hu] at h
  split at h
  · simp [requestOf] at h
  · split at h
    · simp [requestOf] at h
    · simp only [handleUpdateUser, requestOf, spread_nil user hw] at h
      cases h
      simp [prop_assign]

theorem perform_not_found (online : Bool) (a : Action) (w : World) (identity : Obj) (tc : Int)
    (hu : w.client.user = some identity) (hw : WellFormed identity)
    (hid : prop identity "id" = .num tc)
    (hno : ∀ u ∈ w.server.users, idMatches (some tc) u = false) :
    (perform online a w).1.server = w.server ∧
      (perform online a w).1.client.user = some identity ∧
      (∀ res, (perform online a w).2 = some res →
        res = { status := 404, body := .obj [("error", .str "User not found")] }) := by
  cases a with
  | changeAvatar base64 =>
    have hid' : prop (handleFileChange base64 identity) "id" = .num tc := by
      simp [handleFileChange, spread_nil identity hw, prop_assign, hid]
    simp only [perform, hu]
    rw [fetchPutUser_not_found online _ w.server tc hid' hno, resultOf_not_found]
    refine ⟨rfl, ?_, ?_⟩
    · rw [(handleUpdateUser_none_user _ _).1]
      exact hu
    · intro res hres
      cases online <;> simp at hres
      exact hres.symm
  | buy art now date =>
    simp only [perform]
    cases hr : requestOf (handleBuy art now date none w.client).2 with
    | none =>
      refine ⟨rfl, ?_, ?_⟩
      · simp only [handleBuy_none_user]
        exact hu
      · intro res hres
        cases hres
    | some updatedUser =>
      have hid' : prop updatedUser "id" = .num tc := by
        rw [requestOf_handleBuy art now date w.client identity updatedUser hu hw hr, hid]
      simp only
      rw [fetchPutUser_not_found online _ w.server tc hid' hno, resultOf_not_found]
      refine ⟨rfl, ?_, ?_⟩
      · simp only [handleBuy_none_user]
        exact hu
      · intro res hres
        cases online <;> simp at hres
        exact hres.symm

theorem performAll_not_found (acts : List (Bool × Action)) (w : World) (identity : Obj)
    (tc : Int) (hu : w.client.user = some identity) (hw : WellFormed identity)
    (hid : prop identity "id" = .num tc)
    (hno : ∀ u ∈ w.server.users, idMatches (some tc) u = false) :
    (performAll acts w).1.server = w.server ∧
      (performAll acts w).1.client.user = some identity ∧
      (∀ res ∈ (performAll acts w).2,
        res = { status := 404, body := .obj [("error", .str "User not found")] }) := by
  induction acts generalizing w with
  | nil => simp [performAll, hu]
  | cons p rest ih =>
    obtain ⟨online, a⟩ := p
    obtain ⟨hs, hc, hr⟩ := perform_not_found online a w identity tc hu hw hid hno
    obtain ⟨hs', hc', hr'⟩ := ih (perform online a w).1 hc (by rw [hs]; exact hno)
    simp only [performAll]
    refine ⟨by rw [hs', hs], hc', ?_⟩
    intro res hres
    rcases List.mem_append.1 hres with h1 | h2
    · cases hp : (perform online a w).2 with
      | none => simp [hp] at h1
      | some r =>
        simp [hp] at h1
        rw [h1]
        exact hr r hp
    · exact hr' res h2

theorem handleSubmit_signup_free (c : Client) (users : List Obj) (f : FormData) (tc : Int)
    (hl : c.users = .list users) (hfree : ∀ u ∈ users, prop u "email" ≠ .str f.email) :
    handleSubmit true f tc c =
      (handleLogin (localRecord f tc) { c with users := .promise },
        [.usersAdd (localRecord f tc)]) := by
  have hf : (users.find? fun u => strictEq (prop u "email") (.str f.email)).isSome = false := by
    rw [Bool.eq_false_iff]
    intro hc
    rw [find_isSome_iff] at hc
    obtain ⟨u, hu, he⟩ := hc
    exact hfree u hu ((strictEq_str _ _).1 he)
  have hs : spread [] f.toObj = f.toObj := spread_nil _ (wellFormed_formData f)
  have hn : assign (assign f.toObj "id" (.num tc)) "orders" (.arr []) = localRecord f tc := by
    simp [localRecord, FormData.toObj, assign]
  simp [handleSubmit, hl, hf, hs, hn]

theorem postUser_localRecord (f : FormData) (tc ts : Int) (s : Store) :
    postUser ts (wireProps (localRecord f tc)) s =
      ({ status := 200, body := .obj (localRecord f ts) },
        { s with users := s.users ++ [localRecord f ts] }) := by
  have hw : wireProps (localRecord f tc) = localRecord f tc := by
    simp [localRecord, FormData.toObj, wireProps, Json.wire, wireList]
  have hwf : WellFormed (localRecord f tc) := by
    simp [WellFormed, localRecord, FormData.toObj]
  have ha : assign (localRecord f tc) "id" (.num ts) = localRecord f ts := by
    simp [localRecord, FormData.toObj, assign]
  simp [postUser, readUsers, writeUsers, hw, spread_nil _ hwf, ha, json]

/-- Claim C14: after a successful signup with form `f` at client clock reading `tc`,
answered by the gateway at server clock reading `ts`, the user signed in and written
to the session is the local record `{...f, id: tc, orders: []}`; the gateway returns
and stores, as last user, the record `{...f, id: ts, orders: []}`. The two ids, and
the two records, are equal exactly when `tc = ts`. From any state in which that
identity is signed in and no stored user has id `tc`, every sequence of avatar updates
and purchases leaves the stored collections as they are and the identity signed in,
and every answer of the gateway is 404 `{error: "User not found"}`. -/
theorem signup_identity (w : World) (users : List Obj) (f : FormData) (tc ts : Int)
    (hl : w.client.users = .list users)
    (hfree : ∀ u ∈ users, prop u "email" ≠ .str f.email) :
    (signup true f tc ts w).client.user = some (localRecord f tc) ∧
      (signup true f tc ts w).client.session = some (localRecord f tc) ∧
      (LumaDB.users.add true ts (localRecord f tc) w.server).1 = some (localRecord f ts) ∧
      (signup true f tc ts w).server.users = w.server.users ++ [localRecord f ts] ∧
      prop (localRecord f tc) "id" = .num tc ∧
      prop (localRecord f ts) "id" = .num ts ∧
      (prop (localRecord f tc) "id" = prop (localRecord f ts) "id" ↔ tc = ts) ∧
      (localRecord f tc = localRecord f ts ↔ tc = ts) ∧
      (∀ (acts : List (Bool × Action)) (w' : World),
        w'.client.user = some (localRecord f tc) →
        (∀ u ∈ w'.server.users, idMatches (some tc) u = false) →
        (performAll acts w').1.server = w'.server ∧
        (performAll acts w').1.server.users = w'.server.users ∧
        (performAll acts w').1.client.user = some (localRecord f tc) ∧
        (∀ res ∈ (performAll acts w').2,
          res = { status := 404, body := .obj [("error", .str "User not found")] })) := by
  have hsub := handleSubmit_signup_free w.client users f tc hl hfree
  have hpost := postUser_localRecord f tc ts w.server
  have hidc : ∀ t : Int, prop (localRecord f t) "id" = .num t := by
    intro t
    simp [localRecord, FormData.toObj, prop]
  have hwf : WellFormed (localRecord f tc) := by
    simp [WellFormed, localRecord, FormData.toObj]
  refine ⟨?_, ?_, ?_, ?_, hidc tc, hidc ts, ?_, ?_, ?_⟩
  · simp [signup, hsub, handleLogin, notify]
  · simp [signup, hsub, handleLogin, notify]
  · simp [LumaDB.users.add, fetchPostUser, hpost, resultOf, Response.ok]
  · simp [signup, hsub, LumaDB.users.add, fetchPostUser, hpost]
  · rw [hidc tc, hidc ts]
    constructor
    · intro h
      injection h
    · intro h
      rw [h]
  · constructor
    · intro h
      have := congrArg (fun o => prop o "id") h
      simp only [hidc] at this
      injection this
    · intro h
      rw [h]
  · intro acts w' hu hno
    obtain ⟨h1, h2, h3⟩ := performAll_not_found acts w' (localRecord f tc) tc hu hwf (hidc tc) hno
    exact ⟨h1, by rw [h1], h2, h3⟩

theorem signup_identity_witness :
    (signup true (sampleForm "d@x.com") 1700000000000 1700000000450 sampleWorld).client.user =
        some (localRecord (sampleForm "d@x.com") 1700000000000) ∧
      (signup true (sampleForm "d@x.com") 1700000000000 1700000000450
          sampleWorld).server.users =
        sampleStore.users ++ [localRecord (sampleForm "d@x.com") 1700000000450] ∧
      (performAll sampleActions
          (signup true (sampleForm "d@x.com") 1700000000000 1700000000450
            sampleWorld)).1.server.users =
        (signup true (sampleForm "d@x.com") 1700000000000 1700000000450
          sampleWorld).server.users ∧
      (performAll sampleActions
          (signup true (sampleForm "d@x.com") 1700000000000 1700000000450 sampleWorld)).2 =
        [{ status := 404, body := .obj [("error", .str "User not found")] },
         { status := 404, body := .obj [("error", .str "User not found")] }] := by
  obtain ⟨huser, _, _, hstored, _, _, _, _, hlater⟩ :=
    signup_identity sampleWorld [sampleArtist, sampleBuyer] (sampleForm "d@x.com")
      1700000000000 1700000000450 rfl (by decide)
  have hno : ∀ u ∈ (signup true (sampleForm "d@x.com") 1700000000000 1700000000450
      sampleWorld).server.users, idMatches (some 1700000000000) u = false := by
    rw [hstored]
    decide
  obtain ⟨_, husers, _, _⟩ := hlater sampleActions _ huser hno
  exact ⟨huser, hstored, husers, by decide⟩

/-! ## Views and roles -/

theorem keys_assign (a : Obj) (k : String) (v : Json) :
    (assign a k v).map Prod.fst =
      if hasKey a k = true then a.map Prod.fst else a.map Prod.fst ++ [k] := by
  induction a with
  | nil => simp [assign, hasKey]
  | cons p rest ih =>
    obtain ⟨c, w⟩ := p
    by_cases h : c = k
    · simp [assign, hasKey, h]
    · simp only [assign, hasKey, h, if_false, List.map_cons, ih]
      split <;> simp

theorem wellFormed_assign (a : Obj) (k : String) (v : Json) (h : WellFormed a) :
    WellFormed (assign a k v) := by
  unfold WellFormed at h ⊢
  rw [keys_assign]
  split
  · exact h
  · rename_i hk
    rw [List.nodup_append]
    refine ⟨h, by simp, ?_⟩
    intro x hx hx'
    have hxk : x = k := by simpa using hx'
    subst hxk
    exact hk ((hasKey_eq_true_iff a x).2 hx)

theorem wellFormed_spread (a b : Obj) (h : WellFormed a) : WellFormed (spread a b) := by
  induction b generalizing a with
  | nil => simpa [spread] using h
  | cons p rest ih =>
    obtain ⟨k, v⟩ := p
    simp only [spread]
    exact ih _ (wellFormed_assign a k v h)

theorem wellFormed_nil : WellFormed [] := by
  simp [WellFormed]

theorem keys_wireProps_sublist (o : Obj) :
    List.Sublist ((wireProps o).map Prod.fst) (o.map Prod.fst) := by
  induction o with
  | nil => simp [wireProps]
  | cons p rest ih =>
    obtain ⟨k, v⟩ := p
    cases v <;> simp [wireProps, ih, List.Sublist.cons]

theorem wellFormed_wireProps (o : Obj) (h : WellFormed o) : WellFormed (wireProps o) := by
  unfold WellFormed at h ⊢
  exact List.Nodup.sublist (keys_wireProps_sublist o) h

theorem prop_wireProps_str (o : Obj) (k r : String) (h : prop o k = .str r) :
    prop (wireProps o) k = .str r ∧ hasKey (wireProps o) k = true := by
  induction o with
  | nil => simp [prop] at h
  | cons p rest ih =>
    obtain ⟨c, v⟩ := p
    by_cases hc : c = k
    · simp [prop, hc] at h
      subst h
      simp [wireProps, Json.wire, prop, hasKey, hc]
    · simp [prop, hc] at h
      cases v <;> simp [wireProps, prop, hasKey, hc, ih h]

theorem putUser_found_raw (s : Store) (pid : Option Int) (body : Obj) (i : Nat)
    (hf : findIndex (idMatches pid) s.users = some i) :
    ∃ old, putUser pid body s =
      (json (.obj (spread (spread [] old) body)),
        { s with users := s.users.set i (spread (spread [] old) body) }) := by
  obtain ⟨old, hold, _, _⟩ := findIndex_eq_some _ _ _ hf
  have hi : i < s.users.length := by
    rcases Nat.lt_or_ge i s.users.length with hlt | hge
    · exact hlt
    · rw [List.getElem?_eq_none hge] at hold
      cases hold
  have hget : s.users.getD i [] = old := by
    simp [List.getD, hold]
  have hset : (s.users.set i (spread (spread [] old) body)).getD i [] =
      spread (spread [] old) body := by
    simp [List.getD, hi]
  exact ⟨old, by simp only [putUser, readUsers, writeUsers, hf, hget, hset]⟩

theorem handleBuy_no_request (art : Obj) (now : Int) (date : String) (c : Client)
    (h : requestOf (handleBuy art now date none c).2 = none) :
    (handleBuy art now date none c).1 = c := by
  cases hu : c.user with
  | none => simp [handleBuy, hu]
  | some user =>
    by_cases hr : prop user "role" = .str "buyer"
    · cases ho : iterate (prop user "orders") with
      | none => simp [handleBuy, hu, hr, ho]
      | some orders => simp [handleBuy, hu, hr, ho, handleUpdateUser, requestOf] at h
    · simp [handleBuy, hu, hr]

theorem handleBuy_request_shape (art : Obj) (now : Int) (date : String) (c : Client)
    (user updatedUser : Obj) (hu : c.user = some user)
    (h : requestOf (handleBuy art now date none c).2 = some updatedUser) :
    ∃ x, updatedUser = assign (spread [] user) "orders" x := by
  simp only [handleBuy, hu] at h
  split at h
  · simp [requestOf] at h
  · split at h
    · simp [requestOf] at h
    · simp only [handleUpdateUser, requestOf] at h
      cases h
      exact ⟨_, rfl⟩

theorem wire_ne_undefined (v : Json) : Json.wire v ≠ .undefined := by
  cases v <;> simp [Json.wire]

theorem wire_eq_str (v : Json) (t : String) : Json.wire v = .str t ↔ v = .str t := by
  cases v <;> simp [Json.wire]

theorem prop_wireProps (o : Obj) (k : String) (h : prop o k ≠ .undefined) :
    prop (wireProps o) k = Json.wire (prop o k) ∧ hasKey (wireProps o) k = true := by
  induction o with
  | nil => simp [prop] at h
  | cons p rest ih =>
    obtain ⟨c, v⟩ := p
    by_cases hc : c = k
    · simp only [prop, hc, if_true] at h ⊢
      cases v <;> simp [wireProps, Json.wire, prop, hasKey, hc] at h ⊢
    · simp only [prop, hc, if_false] at h ⊢
      cases v <;> simp [wireProps, prop, hasKey, hc, ih h]

theorem hasRole_spread_spread (old body : Obj) (hb : HasRole body) (hk : hasKey body "role" = true) :
    HasRole (spread (spread [] old) body) ∧
      prop (spread (spread [] old) body) "role" = prop body "role" := by
  refine ⟨⟨wellFormed_spread _ _ (wellFormed_spread _ _ wellFormed_nil), ?_⟩, ?_⟩
  · rw [prop_spread _ _ hb.1, if_pos hk]
    exact hb.2
  · rw [prop_spread _ _ hb.1, if_pos hk]

theorem member_wire (artist : Bool) (u : Obj) (h : Member artist u) :
    HasRole (wireProps u) ∧ hasKey (wireProps u) "role" = true ∧
      isArtist (wireProps u) = artist := by
  obtain ⟨⟨hw, hr⟩, ha⟩ := h
  obtain ⟨h1, h2⟩ := prop_wireProps u "role" hr
  refine ⟨⟨wellFormed_wireProps u hw, ?_⟩, h2, ?_⟩
  · rw [h1]
    exact wire_ne_undefined _
  · rw [← ha]
    unfold isArtist
    rw [h1]
    simp only [wire_eq_str]

/-- What `LumaDB.users.update` resolves to for a record with a role, when it is a
record, has the same role class; and the stored users keep having roles. -/
theorem update_member (route : Json → Option Int) (online : Bool) (updatedUser : Obj)
    (s : Store) (artist : Bool) (hm : Member artist updatedUser)
    (hs : ∀ u ∈ s.users, HasRole u) :
    (∀ r, (LumaDB.users.update route online updatedUser s).1 = some r → Member artist r) ∧
      (∀ u ∈ (LumaDB.users.update route online updatedUser s).2.users, HasRole u) := by
  obtain ⟨hbody, hkey, hart⟩ := member_wire artist updatedUser hm
  cases online with
  | false =>
    simp only [LumaDB.users.update]
    exact ⟨fun r hr => by simp at hr, hs⟩
  | true =>
    cases hf : findIndex (idMatches (route (prop updatedUser "id"))) s.users with
    | none =>
      simp [LumaDB.users.update, putUser_of_findIndex_none s _ _ hf, resultOf, Response.ok]
      exact hs
    | some i =>
      obtain ⟨old, hp⟩ := putUser_found_raw s (route (prop updatedUser "id"))
        (wireProps updatedUser) i hf
      obtain ⟨hrole, hsame⟩ := hasRole_spread_spread old (wireProps updatedUser) hbody hkey
      have hmem : Member artist (spread (spread [] old) (wireProps updatedUser)) := by
        refine ⟨hrole, ?_⟩
        rw [← hart]
        unfold isArtist
        rw [hsame]
      simp only [LumaDB.users.update, hp, resultOf, Response.ok, json]
      refine ⟨?_, ?_⟩
      · intro r hr
        simp at hr
        rw [← hr]
        exact hmem
      · intro u hu
        rcases List.mem_or_eq_of_mem_set hu with h | h
        · exact hs u h
        · rw [h]
          exact hrole

theorem member_assign (artist : Bool) (u : Obj) (k : String) (x : Json) (hk : k ≠ "role")
    (h : Member artist u) : Member artist (assign (spread [] u) k x) := by
  obtain ⟨⟨hw, hr⟩, ha⟩ := h
  have hp : prop (assign (spread [] u) k x) "role" = prop u "role" := by
    rw [spread_nil u hw, prop_assign, if_neg hk]
  refine ⟨⟨wellFormed_assign _ _ _ (wellFormed_spread _ _ wellFormed_nil), ?_⟩, ?_⟩
  · rw [hp]
    exact hr
  · rw [← ha]
    unfold isArtist
    rw [hp]

theorem member_self (u : Obj) (h : HasRole u) : Member (isArtist u) u := ⟨h, rfl⟩

theorem settled_init (session : Option Obj) (server : Store)
    (hstore : ∀ u ∈ server.users, HasRole u) (hsession : ∀ v, session = some v → HasRole v) :
    Settled (App.init session server) := by
  refine ⟨hstore, ?_, hsession, ?_, ?_, ?_, ?_⟩
  · simp [App.init, Client.init, UsersState.HasRoles]
  · simp [App.init]
  · simp [App.init]
  · intro _
    simp [App.init, Client.init]
  · intro u hu
    simp [App.init, Client.init] at hu

theorem settled_issueUpdate (route : Json → Option Int) (online : Bool) (users : UsersState)
    (updatedUser u : Obj) (a : App) (h : Settled a) (hu : a.client.user = some u)
    (hus : users.HasRoles) (hm : Member (isArtist u) updatedUser) :
    Settled (issueUpdate route online users updatedUser a) := by
  obtain ⟨h1, h2, h3, h4, h5, _, h7⟩ := h
  obtain ⟨hres, hstore⟩ := update_member route online updatedUser a.server (isArtist u) hm h1
  refine ⟨hstore, h2, h3, h4, ?_, ?_, ?_⟩
  · intro p hp
    simp only [issueUpdate, List.mem_append, List.mem_singleton] at hp
    rcases hp with hp | hp
    · exact h5 p hp
    · rw [hp]
      exact hus
  · intro hn
    simp only [issueUpdate] at hn
    rw [hu] at hn
    cases hn
  · intro u' hu'
    simp only [issueUpdate] at hu'
    rw [hu] at hu'
    cases hu'
    obtain ⟨g1, g2, g3, g4, g5⟩ := h7 u hu
    refine ⟨g1, g2, g3, ?_, g5⟩
    intro p hp r hr
    simp only [issueUpdate, List.mem_append, List.mem_singleton] at hp
    rcases hp with hp | hp
    · exact g4 p hp r hr
    · rw [hp] at hr
      exact hres r hr

theorem settled_restore (route : Json → Option Int) (online : Bool) (a : App) (h : Settled a) :
    Settled (step route (.restore online) a) := by
  obtain ⟨h1, h2, h3, h4, h5, h6, h7⟩ := h
  have hl : (UsersState.list (LumaDB.users.getAll online a.server)).HasRoles := by
    intro u hu
    cases online with
    | false => simp [LumaDB.users.getAll] at hu
    | true => exact h1 u (by simpa [LumaDB.users.getAll, readUsers] using hu)
  simp only [step, loadData]
  cases hs : a.client.session with
  | none =>
    refine ⟨h1, hl, ?_, h4, h5, h6, ?_⟩
    · intro v hv
      simp [hs] at hv
    · intro u hu
      obtain ⟨g1, _, g3, g4, g5⟩ := h7 u hu
      refine ⟨g1, ?_, g3, g4, g5⟩
      intro v hv
      simp [hs] at hv
  | some v =>
    have hv : HasRole v := h3 v hs
    refine ⟨h1, hl, ?_, h4, h5, ?_, ?_⟩
    · intro w hw
      simp only [hs] at hw
      cases hw
      exact hv
    · intro hn
      simp at hn
    · intro u hu
      simp only [Option.some.injEq] at hu
      subst hu
      cases hold : a.client.user with
      | none =>
        obtain ⟨e1, e2, e3⟩ := h6 hold
        refine ⟨hv, ?_, ?_, ?_, ?_⟩
        · intro w hw
          simp only [hs] at hw
          cases hw
          exact member_self _ hv
        · intro e he
          rw [e1] at he
          cases he
        · intro p hp
          rw [e2] at hp
          cases hp
        · intro hd
          exact absurd hd e3
      | some u =>
        obtain ⟨_, g2, g3, g4, g5⟩ := h7 u hold
        have hsame : isArtist v = isArtist u := (g2 v hs).2
        rw [hsame]
        refine ⟨hv, ?_, g3, g4, g5⟩
        intro w hw
        simp only [hs] at hw
        cases hw
        exact g2 _ hs

theorem settled_login (a : App) (x : Obj) (users : UsersState) (h : Settled a)
    (hu : a.client.user = none) (hx : HasRole x) (hus : users.HasRoles)
    (s : Store) (hs : ∀ u ∈ s.users, HasRole u) :
    Settled { a with client := handleLogin x { a.client with users := users }, server := s } := by
  obtain ⟨_, _, _, h4, h5, h6, _⟩ := h
  obtain ⟨e1, e2, e3⟩ := h6 hu
  refine ⟨hs, hus, ?_, h4, h5, ?_, ?_⟩
  · intro v hv
    simp only [handleLogin, notify, Option.some.injEq] at hv
    rw [← hv]
    exact hx
  · intro hn
    simp [handleLogin, notify] at hn
  · intro u hu'
    simp only [handleLogin, notify, Option.some.injEq] at hu'
    subst hu'
    refine ⟨hx, ?_, ?_, ?_, ?_⟩
    · intro v hv
      simp only [handleLogin, notify, Option.some.injEq] at hv
      rw [← hv]
      exact member_self _ hx
    · intro e he
      rw [e1] at he
      cases he
    · intro p hp
      rw [e2] at hp
      cases hp
    · intro hd
      exact absurd hd e3

theorem hasRole_localRecord (f : FormData) (t : Int) : HasRole (localRecord f t) := by
  refine ⟨by simp [WellFormed, localRecord, FormData.toObj], ?_⟩
  simp [localRecord, FormData.toObj, prop]

theorem add_localRecord_hasRoles (online : Bool) (f : FormData) (tc ts : Int) (s : Store)
    (hs : ∀ u ∈ s.users, HasRole u) :
    ∀ u ∈ (LumaDB.users.add online ts (localRecord f tc) s).2.users, HasRole u := by
  cases online with
  | false => simpa [LumaDB.users.add, fetchPostUser] using hs
  | true =>
    intro u hu
    simp only [LumaDB.users.add, fetchPostUser, postUser_localRecord, if_true,
      List.mem_append, List.mem_singleton] at hu
    rcases hu with hu | hu
    · exact hs u hu
    · rw [hu]
      exact hasRole_localRecord f ts

theorem settled_submit (route : Json → Option Int) (isSignup : Bool) (f : FormData)
    (now serverNow : Int) (online : Bool) (a : App) (h : Settled a) :
    Settled (step route (.submit isSignup f now serverNow online) a) := by
  simp only [step]
  cases hu : a.client.user with
  | some u => exact h
  | none =>
    have h1 := h.1
    have h2 := h.2.1
    cases hus : a.client.users with
    | promise =>
      simp only [handleSubmit, hus, addRequestOf]
      exact h
    | list users =>
      rw [hus] at h2
      cases isSignup with
      | true =>
        by_cases hfree : ∀ u ∈ users, prop u "email" ≠ .str f.email
        · rw [handleSubmit_signup_free a.client users f now hus hfree]
          simp only [addRequestOf]
          exact settled_login a (localRecord f now) .promise h hu (hasRole_localRecord f now)
            trivial _ (add_localRecord_hasRoles online f now serverNow a.server h1)
        · have hf : (users.find? fun u =>
              strictEq (prop u "email") (.str f.email)).isSome = true := by
            rw [find_isSome_iff]
            push_neg at hfree
            obtain ⟨u, hu', he⟩ := hfree
            exact ⟨u, hu', (strictEq_str _ _).2 he⟩
          simp only [handleSubmit, hus, hf, if_true, addRequestOf]
          exact h
      | false =>
        simp only [handleSubmit, hus]
        cases hfind : (users.find? fun u => strictEq (prop u "email") (.str f.email) &&
            strictEq (prop u "password") (.str f.password)) with
        | none =>
          simp only [addRequestOf]
          exact h
        | some found =>
          simp only [addRequestOf]
          obtain ⟨before, after, hsplit, _, _⟩ := find_eq_some_split _ _ _ hfind
          have hfound : HasRole found := h2 found (by rw [hsplit]; simp)
          have := settled_login a found a.client.users h hu hfound (by rw [hus]; exact h2)
            a.server h1
          exact this

theorem click_cases (b : NavButton) (c : Client) :
    click b c = c ∨
      (∃ v : String, v ≠ "dashboard" ∧ click b c = { c with view := v }) ∨
      (∃ u, c.user = some u ∧ isArtist u = true ∧ click b c = { c with view := "dashboard" }) := by
  unfold click
  split
  · exact Or.inl rfl
  · rename_i user hu
    cases b with
    | logo => exact Or.inr (Or.inl ⟨"gallery", by decide, rfl⟩)
    | gallery => exact Or.inr (Or.inl ⟨"gallery", by decide, rfl⟩)
    | profile => exact Or.inr (Or.inl ⟨"profile", by decide, rfl⟩)
    | studio =>
      by_cases hr : prop user "role" = .str "artist"
      · exact Or.inr (Or.inr ⟨user, hu, by simp [isArtist, hr], by simp [hr]⟩)
      · exact Or.inl (by simp [hr])

theorem settled_click (route : Json → Option Int) (b : NavButton) (a : App) (h : Settled a) :
    Settled (step route (.click b) a) := by
  obtain ⟨h1, h2, h3, h4, h5, h6, h7⟩ := h
  simp only [step]
  rcases click_cases b a.client with hc | ⟨v, hv, hc⟩ | ⟨user, hu, hart, hc⟩
  · rw [hc]
    exact ⟨h1, h2, h3, h4, h5, h6, h7⟩
  · rw [hc]
    refine ⟨h1, h2, h3, h4, h5, ?_, ?_⟩
    · intro hn
      obtain ⟨e1, e2, _⟩ := h6 hn
      exact ⟨e1, e2, hv⟩
    · intro u hu'
      obtain ⟨g1, g2, g3, g4, _⟩ := h7 u hu'
      exact ⟨g1, g2, g3, g4, fun hd => absurd hd hv⟩
  · rw [hc]
    refine ⟨h1, h2, h3, h4, h5, ?_, ?_⟩
    · intro hn
      have hn' : a.client.user = none := hn
      rw [hu] at hn'
      cases hn'
    · intro u hu'
      have hu'' : a.client.user = some u := hu'
      rw [hu] at hu''
      cases hu''
      obtain ⟨g1, g2, g3, g4, _⟩ := h7 user hu
      exact ⟨g1, g2, g3, g4, fun _ => hart⟩

theorem settled_logout (route : Json → Option Int) (a : App) (h : Settled a) :
    Settled (stepSettled route .logout a) := by
  simp only [stepSettled]
  by_cases hg : a.encoding = [] ∧ a.pending = []
  · rw [if_pos hg]
    simp only [step]
    cases hu : a.client.user with
    | none => exact h
    | some user =>
      obtain ⟨h1, h2, _, h4, h5, _, _⟩ := h
      refine ⟨h1, h2, ?_, h4, h5, ?_, ?_⟩
      · intro v hv
        simp [handleLogout] at hv
      · intro _
        exact ⟨hg.1, hg.2, by simp [handleLogout]⟩
      · intro u hu'
        simp [handleLogout] at hu'
  · rw [if_neg hg]
    exact h

theorem settled_chooseImage (route : Json → Option Int) (a : App) (h : Settled a) :
    Settled (step route .chooseImage a) := by
  cases hu : a.client.user with
  | none =>
    have hstep : step route .chooseImage a = a := by
      simp only [step, hu]
    rw [hstep]
    exact h
  | some user =>
    by_cases hv : a.client.view = "profile"
    · have hstep : step route .chooseImage a =
          { a with encoding := a.encoding ++ [{ user := user, users := a.client.users }] } := by
        simp only [step, hu, if_pos hv]
      rw [hstep]
      obtain ⟨h1, h2, h3, h4, h5, _, h7⟩ := h
      obtain ⟨g1, g2, g3, g4, g5⟩ := h7 user hu
      refine ⟨h1, h2, h3, ?_, h5, ?_, ?_⟩
      · intro e he
        simp only [List.mem_append, List.mem_singleton] at he
        rcases he with he | he
        · exact h4 e he
        · rw [he]
          exact h2
      · intro hn
        have hn' : a.client.user = none := hn
        rw [hu] at hn'
        cases hn'
      · intro u hu'
        have hu'' : a.client.user = some u := hu'
        rw [hu] at hu''
        cases hu''
        refine ⟨g1, g2, ?_, g4, g5⟩
        intro e he
        simp only [List.mem_append, List.mem_singleton] at he
        rcases he with he | he
        · exact g3 e he
        · rw [he]
          exact member_self _ g1
    · have hstep : step route .chooseImage a = a := by
        simp only [step, hu, if_neg hv]
      rw [hstep]
      exact h

theorem settled_notify (msg : Notice) (a : App) (h : Settled a) :
    Settled { a with client := notify msg a.client } := h

theorem settled_encoded (route : Json → Option Int) (i : Nat) (base64 : Option String)
    (online : Bool) (a : App) (h : Settled a) :
    Settled (step route (.encoded i base64 online) a) := by
  cases he : a.encoding[i]? with
  | none =>
    have hstep : step route (.encoded i base64 online) a = a := by
      simp only [step, he]
    rw [hstep]
    exact h
  | some e =>
    have hmem : e ∈ a.encoding := List.getElem?_mem he
    obtain ⟨h1, h2, h3, h4, h5, h6, h7⟩ := h
    cases hu : a.client.user with
    | none =>
      rw [(h6 hu).1] at hmem
      cases hmem
    | some u =>
      obtain ⟨g1, g2, g3, g4, g5⟩ := h7 u hu
      have herased : Settled { a with encoding := a.encoding.eraseIdx i } := by
        refine ⟨h1, h2, h3, fun e' he' => h4 e' (List.mem_of_mem_eraseIdx he'), h5, ?_, ?_⟩
        · intro hn
          have hn' : a.client.user = none := hn
          rw [hu] at hn'
          cases hn'
        · intro u' hu'
          have hu'' : a.client.user = some u' := hu'
          rw [hu] at hu''
          cases hu''
          exact ⟨g1, g2, fun e' he' => g3 e' (List.mem_of_mem_eraseIdx he'), g4, g5⟩
      cases base64 with
      | none =>
        have hstep : step route (.encoded i none online) a =
            { a with encoding := a.encoding.eraseIdx i } := by
          simp only [step, he]
        rw [hstep]
        exact herased
      | some img =>
        have hstep : step route (.encoded i (some img) online) a =
            issueUpdate route online e.users (handleFileChange img e.user)
              { a with encoding := a.encoding.eraseIdx i } := by
          simp only [step, he]
        rw [hstep]
        exact settled_issueUpdate route online e.users _ u _ herased hu (h4 e hmem)
          (member_assign _ _ "avatar" _ (by decide) (g3 e hmem))

theorem settled_buy (route : Json → Option Int) (art : Obj) (now : Int) (date : String)
    (online : Bool) (a : App) (h : Settled a) :
    Settled (step route (.buy art now date online) a) := by
  cases hu : a.client.user with
  | none =>
    have hstep : step route (.buy art now date online) a = a := by
      simp only [step, hu]
    rw [hstep]
    exact h
  | some user =>
    by_cases hg : a.client.view = "gallery" ∧ prop user "role" = .str "buyer"
    · cases hreq : requestOf (handleBuy art now date none a.client).2 with
      | none =>
        have hstep : step route (.buy art now date online) a = a := by
          simp only [step, hu, if_pos hg, hreq,
            handleBuy_no_request art now date a.client hreq]
        rw [hstep]
        exact h
      | some updatedUser =>
        have hstep : step route (.buy art now date online) a =
            issueUpdate route online a.client.users updatedUser
              { a with client := notify (.text "Order Placed! Check your Profile.") a.client } := by
          simp only [step, hu, if_pos hg, hreq]
        rw [hstep]
        obtain ⟨x, hx⟩ := handleBuy_request_shape art now date a.client user updatedUser hu hreq
        rw [hx]
        exact settled_issueUpdate route online a.client.users _ user _
          (settled_notify _ a h) hu h.2.1
          (member_assign _ _ "orders" _ (by decide) (member_self _ (h.2.2.2.2.2.2 user hu).1))
    · have hstep : step route (.buy art now date online) a = a := by
        simp only [step, hu, if_neg hg]
      rw [hstep]
      exact h

theorem settled_answer (route : Json → Option Int) (i : Nat) (a : App) (h : Settled a) :
    Settled (step route (.answer i) a) := by
  cases hp : a.pending[i]? with
  | none =>
    have hstep : step route (.answer i) a = a := by
      simp only [step, hp]
    rw [hstep]
    exact h
  | some p =>
    have hstep : step route (.answer i) a =
        { a with client := resumeUpdateUser p.users p.result a.client,
                 pending := a.pending.eraseIdx i } := by
      simp only [step, hp]
    rw [hstep]
    have hmem : p ∈ a.pending := List.getElem?_mem hp
    obtain ⟨h1, h2, h3, h4, h5, h6, h7⟩ := h
    cases hu : a.client.user with
    | none =>
      rw [(h6 hu).2.1] at hmem
      cases hmem
    | some u =>
      obtain ⟨g1, g2, g3, g4, g5⟩ := h7 u hu
      have h5' : ∀ q ∈ a.pending.eraseIdx i, q.users.HasRoles :=
        fun q hq => h5 q (List.mem_of_mem_eraseIdx hq)
      have g4' : ∀ q ∈ a.pending.eraseIdx i, ∀ r, q.result = some r → Member (isArtist u) r :=
        fun q hq => g4 q (List.mem_of_mem_eraseIdx hq)
      cases hr : p.result with
      | none =>
        refine ⟨h1, h2, h3, h4, h5', ?_, ?_⟩
        · intro hn
          have hn' : a.client.user = none := hn
          rw [hu] at hn'
          cases hn'
        · intro u' hu'
          have hu'' : a.client.user = some u' := hu'
          rw [hu] at hu''
          cases hu''
          exact ⟨g1, g2, g3, g4', g5⟩
      | some r =>
        obtain ⟨hrole, hsame⟩ := g4 p hmem r hr
        cases hus : p.users with
        | promise =>
          refine ⟨h1, h2, h3, h4, h5', ?_, ?_⟩
          · intro hn
            simp [resumeUpdateUser, hus] at hn
          · intro u' hu'
            simp only [resumeUpdateUser, hus, Option.some.injEq] at hu'
            subst hu'
            rw [hsame]
            exact ⟨hrole, g2, g3, g4', g5⟩
        | list users =>
          have hlist : ∀ x ∈ users, HasRole x := by
            have := h5 p hmem
            rw [hus] at this
            exact this
          refine ⟨h1, ?_, ?_, h4, h5', ?_, ?_⟩
          · intro x hx
            simp only [resumeUpdateUser, hus, notify, List.mem_map] at hx
            obtain ⟨y, hy, hxy⟩ := hx
            split at hxy
            · rw [← hxy]
              exact hrole
            · rw [← hxy]
              exact hlist y hy
          · intro v hv
            simp only [resumeUpdateUser, hus, notify, Option.some.injEq] at hv
            rw [← hv]
            exact hrole
          · intro hn
            simp [resumeUpdateUser, hus, notify] at hn
          · intro u' hu'
            simp only [resumeUpdateUser, hus, notify, Option.some.injEq] at hu'
            subst hu'
            rw [hsame]
            refine ⟨hrole, ?_, g3, g4', g5⟩
            intro v hv
            simp only [resumeUpdateUser, hus, notify, Option.some.injEq] at hv
            rw [← hv]
            exact ⟨hrole, hsame⟩

theorem settled_stepSettled (route : Json → Option Int) (e : Event) (a : App) (h : Settled a) :
    Settled (stepSettled route e a) := by
  cases e with
  | restore online => exact settled_restore route online a h
  | submit isSignup f now serverNow online =>
    exact settled_submit route isSignup f now serverNow online a h
  | click b => exact settled_click route b a h
  | logout => exact settled_logout route a h
  | chooseImage => exact settled_chooseImage route a h
  | encoded i base64 online => exact settled_encoded route i base64 online a h
  | buy art now date online => exact settled_buy route art now date online a h
  | answer i => exact settled_answer route i a h

theorem settled_runSettled (route : Json → Option Int) (events : List Event) (a : App)
    (h : Settled a) : Settled (runSettled route events a) := by
  induction events generalizing a with
  | nil => exact h
  | cons e rest ih =>
    simp only [runSettled, List.foldl_cons]
    exact ih _ (settled_stepSettled route e a h)

/-- Claim C12, as stated, fails, in three runs that end with the Dashboard as the active
view of a signed-in buyer. In the first the answer to the buyer's purchase arrives
after the buyer has logged out and the artist has signed in and opened the Studio. In
the second the same happens while the buyer's image is still being encoded. In the
third nobody logs out: a stored user without a role, whose id reads as 5, sends two
updates; they reach the two stored users with id 5 in turn, and the answers carry the
role of the one and then of the other. -/
theorem dashboard_counterexample :
    ((run routeId staleAnswerTrace (App.init none marketStore)).client.view = "dashboard" ∧
        ∃ u, (run routeId staleAnswerTrace (App.init none marketStore)).client.user = some u ∧
          prop u "role" = .str "buyer" ∧ prop u "role" ≠ .str "artist") ∧
      ((run routeId staleImageTrace (App.init none marketStore)).client.view = "dashboard" ∧
        ∃ u, (run routeId staleImageTrace (App.init none marketStore)).client.user = some u ∧
          prop u "role" = .str "buyer" ∧ prop u "role" ≠ .str "artist") ∧
      ((run routeId twinTrace (App.init none twinStore)).client.view = "dashboard" ∧
        (∃ u, (run routeId twinTrace (App.init none twinStore)).client.user = some u ∧
          prop u "role" = .str "buyer" ∧ prop u "role" ≠ .str "artist") ∧
        Event.logout ∉ twinTrace) := by
  decide

/-- Claim C12, amended: let every stored user and the session entry be a record with a
role. In every state reached from the first render by session restore, form
submissions, navigation clicks, image choices, encodings, purchases, answers and
logouts, in any order except that nobody logs out while an image is being encoded or
an update is waiting for its answer, a signed-in user who sees the Dashboard has the
role `artist`, whatever way identifiers are routed. And a logout of a signed-in user
leaves no user, no session entry and the Gallery view. -/
theorem dashboard_artist_only (route : Json → Option Int) (session : Option Obj)
    (server : Store) (events : List Event)
    (hstore : ∀ u ∈ server.users, HasRole u)
    (hsession : ∀ v, session = some v → HasRole v) :
    (∀ u, (runSettled route events (App.init session server)).client.user = some u →
        (runSettled route events (App.init session server)).client.view = "dashboard" →
        prop u "role" = .str "artist") ∧
      (∀ (a : App) (u : Obj), a.client.user = some u →
        (step route .logout a).client.user = none ∧
        (step route .logout a).client.session = none ∧
        (step route .logout a).client.view = "gallery") ∧
      (∀ c : Client, (handleLogout c).user = none ∧ (handleLogout c).session = none ∧
        (handleLogout c).view = "gallery") := by
  have hinv := settled_runSettled route events _ (settled_init session server hstore hsession)
  refine ⟨?_, ?_, ?_⟩
  · intro u hu hv
    have := (hinv.2.2.2.2.2.2 u hu).2.2.2.2 hv
    simpa [isArtist] using this
  · intro a u hu
    simp [step, hu, handleLogout]
  · intro c
    exact ⟨rfl, rfl, rfl⟩

theorem dashboard_artist_only_witness :
    (runSettled routeId studioTrace (App.init none marketStore)).client.view = "dashboard" ∧
      (∃ u, (runSettled routeId studioTrace (App.init none marketStore)).client.user = some u ∧
        prop u "role" = .str "artist") ∧
      (step routeId .logout
        (runSettled routeId studioTrace (App.init none marketStore))).client.user = none ∧
      (step routeId .logout
        (runSettled routeId studioTrace (App.init none marketStore))).client.session = none ∧
      (step routeId .logout
        (runSettled routeId studioTrace (App.init none marketStore))).client.view =
          "gallery" := by
  have hv : (runSettled routeId studioTrace (App.init none marketStore)).client.view =
      "dashboard" := by
    decide
  have hs : (runSettled routeId studioTrace
      (App.init none marketStore)).client.user.isSome = true := by
    decide
  obtain ⟨u, hu⟩ := Option.isSome_iff_exists.1 hs
  have h := dashboard_artist_only routeId none marketStore studioTrace (by decide)
    (by intro v hv'; cases hv')
  exact ⟨hv, ⟨u, hu, h.1 u hu hv⟩, h.2.1 _ u hu⟩

end Luma
